import Mathlib

/-!
Verification development for the hs2sffree migration tool: a shallow
embedding, in Lean 4, of the core data model and operations of the
repository (field mapping, address parsing, company store with
deduplication, and the join/partition passes), together with theorems
settling the specification claims.

Conventions of the embedding:
* Python values flowing through the mapping layer are modelled by the
  `Value` inductive: `null`/absent, strings, integers, and association
  lists (the `associations.companies.results` JSON arrays, of which the
  code only ever reads each element's `"id"`, modelled as `Option String`).
* Python dictionaries are association lists `List (String × Value)` with
  first-match lookup; insertion uses Python's overwrite-or-append order.
* Fallible Python code (raising exceptions) is modelled with
  `Except String`, carrying the exception message.
* `datetime.now()` is modelled by an explicit `now : String` parameter
  (the formatted midnight timestamp the code computes from it); it is the
  only run-varying environment input of the mapped functions.
* Character classes (`\s`, `str.isalpha`) are modelled over the ASCII
  range by `Char.isWhitespace`-style predicates; the source's predicates
  are Unicode-wide, and the claims below do not depend on the difference.
-/

namespace HsSf

/-- A Python value as it flows through the field-mapping layer:
`vNull` stands for both `None` and an absent key, `vAssocs` models a
`results` association array where each element's `"id"` entry is either
a string or missing/null. -/
inductive Value where
  | vNull : Value
  | vStr (s : String) : Value
  | vInt (n : Int) : Value
  | vAssocs (l : List (Option String)) : Value
deriving DecidableEq, Repr

open Value

/-- Python truthiness of a `Value`: `None`, `""`, `0` and `[]` are falsy. -/
def truthy : Value → Bool
  | vNull => false
  | vStr s => !(s = "")
  | vInt n => !(n = 0)
  | vAssocs l => !l.isEmpty

/-- A Python dictionary with string keys, as an ordered association list. -/
abbrev Dict := List (String × Value)

/-- `d.get(k)` — first-match lookup, `None` (here `vNull`) when absent. -/
def dictGet (d : Dict) (k : String) : Value :=
  match d.find? (fun p => p.1 = k) with
  | some p => p.2
  | none => vNull

/-- `d[k]` — raising `KeyError` when the key is absent. -/
def dictGetItem (d : Dict) (k : String) : Except String Value :=
  match d.find? (fun p => p.1 = k) with
  | some p => .ok p.2
  | none => .error ("KeyError: " ++ k)

/-- `d[k] = v` — overwrite the existing entry in place, else append. -/
def dictUpsert (d : Dict) (k : String) (v : Value) : Dict :=
  if d.any (fun p => p.1 = k) then
    d.map (fun p => if p.1 = k then (k, v) else p)
  else
    d ++ [(k, v)]

/-- `{**a, **b}` — start from `a`, then assign every entry of `b` in order. -/
def dictMerge (a b : Dict) : Dict :=
  b.foldl (fun d p => dictUpsert d p.1 p.2) a

/-- `d.pop(k)` — remove the entry, raising `KeyError` when absent. -/
def dictPop (d : Dict) (k : String) : Except String (Value × Dict) :=
  match d.find? (fun p => p.1 = k) with
  | some p => .ok (p.2, d.filter (fun q => !(q.1 = k)))
  | none => .error ("KeyError: " ++ k)

/-! ## Address parsing (`src/infra/address_parser.py`) -/

/-- The characters matched by the regex class `\s` (ASCII range). -/
def isSpaceChar (c : Char) : Bool :=
  c = ' ' || c = '\t' || c = '\n' || c = '\r' || c = '\x0b' || c = '\x0c'

/-- A line-break character, as matched by the regex class `[\r\n]`. -/
def isNewlineChar (c : Char) : Bool :=
  c = '\r' || c = '\n'

/-- `re.sub(p+, r, s)`: replace every maximal run of characters satisfying
`p` by the single character `r`. -/
def collapseRuns (p : Char → Bool) (r : Char) : Bool → List Char → List Char
  | _, [] => []
  | inRun, c :: cs =>
    if p c then
      if inRun then collapseRuns p r true cs
      else r :: collapseRuns p r true cs
    else
      c :: collapseRuns p r false cs

/-- Python `str.strip()` over the ASCII whitespace class. -/
def stripStr (s : String) : String :=
  String.mk (((s.data.dropWhile isSpaceChar).reverse.dropWhile isSpaceChar).reverse)

/-- Python `s.split(sep)` for a one-character separator, keeping empty
segments (structural implementation of the split used by the source). -/
def splitOnChar (sep : Char) : List Char → List (List Char)
  | [] => [[]]
  | c :: cs =>
    if c = sep then [] :: splitOnChar sep cs
    else
      match splitOnChar sep cs with
      | [] => [[c]]
      | h :: t => (c :: h) :: t

/-- `s.split(sep)` on strings. -/
def strSplitOn (sep : Char) (s : String) : List String :=
  (splitOnChar sep s.data).map String.mk

/-- Python `sep.join(parts)` for the single-space separator. -/
def joinWithSpace : List String → String
  | [] => ""
  | [x] => x
  | x :: xs => x ++ " " ++ joinWithSpace xs

/-- The normalisation prefix of `parse_address`: line-break runs become a
comma, whitespace runs become a single space, then strip. -/
def normalizeAddress (address : String) : String :=
  stripStr (String.mk (collapseRuns isSpaceChar ' ' false
    (collapseRuns isNewlineChar ',' false address.data)))

/-- Python `str.isalpha` (ASCII range): non-empty and all letters. -/
def strIsAlpha (s : String) : Bool :=
  !(s = "") && s.data.all Char.isAlpha

/-- The zip/city tail of `parse_address`: first token starts the zip, last
token ends the city, the interior tokens before the first purely-alphabetic
one extend the zip and the rest extend the city. -/
def parseZipCity (street : String) (zipCity : String) :
    Option String × Option String × Option String :=
  match strSplitOn ' ' (stripStr zipCity) with
  | [] => (none, none, none)
  | [_] => (none, none, none)
  | first :: rest =>
    let lastTok := rest.getLastD ""
    let interior := rest.dropLast
    let zipParts := first :: interior.takeWhile (fun t => !strIsAlpha t)
    let cityParts := interior.dropWhile (fun t => !strIsAlpha t) ++ [lastTok]
    (some (joinWithSpace cityParts), some street, some (joinWithSpace zipParts))

/-- Dispatch on the comma-split segments: exactly two are required. -/
def parseFromSegs : List String → Option String × Option String × Option String
  | [street, zipCity] => parseZipCity street zipCity
  | _ => (none, none, none)

/-- `parse_address` from `src/infra/address_parser.py`: returns
`(city, street, zip)`, all `none` on failure. -/
def parse_address (address : String) : Option String × Option String × Option String :=
  if address = "" then (none, none, none)
  else
    let s := normalizeAddress address
    if s = "" then (none, none, none)
    else parseFromSegs (strSplitOn ',' s)

/-! ## Field mapping (`src/field_mapping.py`, `src/models/field_map.py`) -/

/-- The closed set of transform callables registered in the three field
tables. Each constructor names one Python lambda/function of
`src/field_mapping.py`; `evalTransform` is their semantics. -/
inductive Transform where
  | httpsConcat : Transform
  | splitStreet : Transform
  | ctxCity : Transform
  | ctxZip : Transform
  | assocId : Transform
  | dealtypeLookup : Transform
  | dealstageLookup : Transform
  | closedate : Transform
deriving DecidableEq, Repr

/-- `FieldMap` from `src/models/field_map.py`: a source-field name, an
optional transform and a required flag. -/
structure FieldMap where
  src_field : String
  transform_fun : Option Transform := none
  required : Bool := false
deriving DecidableEq, Repr

/-- An ordered field table: `(target_label, FieldMap)` pairs in
declaration order (the Python `OrderedDict`). -/
abbrev FieldsMap := List (String × FieldMap)

def DEALTYPE_MAP : List (String × String) :=
  [("newbusiness", "New Business"), ("existingbusiness", "Existing Business")]

def DEALSTAGE_MAP : List (String × String) :=
  [("qualifiedtobuy", "Qualify"), ("presentationscheduled", "Meet & Present"),
   ("appointmentscheduled", "Propose"), ("decisionmakerboughtin", "Negotiate"),
   ("closedwon", "Closed Won"), ("closedlost", "Closed Lost")]

/-- `dict.get` over a string-to-string table, `vNull` when absent. -/
def tableGet (t : List (String × String)) (k : String) : Value :=
  match t.find? (fun p => p.1 = k) with
  | some p => vStr p.2
  | none => vNull

def optToVal : Option String → Value
  | some s => vStr s
  | none => vNull

/-- Semantics of the transform callables. The result pairs the produced
value with an optional context patch (`_split_street_from_city_zip_code`
is the only transform returning a `(value, context)` tuple); `.error`
models the Python exception the callable would raise on that input.
`now` is the formatted `datetime.now()` midnight timestamp used by
`_get_closedate` when `closedate` is falsy. -/
def evalTransform (now : String) : Transform → Value → Dict → Except String (Value × Option Dict)
  | .httpsConcat, v, _ =>
    match v with
    | vStr s => .ok (vStr ("https://" ++ s), none)
    | _ => .error "TypeError: can only concatenate str"
  | .splitStreet, v, _ =>
    match v with
    | vStr s =>
      let (city, street, zip) := parse_address s
      .ok (optToVal street, some [("city", optToVal city), ("zip_code", optToVal zip)])
    | v =>
      if truthy v then .error "TypeError: expected string or bytes-like object"
      else .ok (vNull, some [("city", vNull), ("zip_code", vNull)])
  | .ctxCity, _, ctx => do
    let c ← dictGetItem ctx "city"
    .ok (c, none)
  | .ctxZip, _, ctx => do
    let z ← dictGetItem ctx "zip_code"
    .ok (z, none)
  | .assocId, v, _ =>
    match v with
    | vAssocs l =>
      match l with
      | [] => .ok (vNull, none)
      | a :: _ => .ok (optToVal a, none)
    | vNull => .ok (vNull, none)
    | v =>
      if truthy v then .error "TypeError: object has no attribute get"
      else .ok (vNull, none)
  | .dealtypeLookup, v, _ =>
    match v with
    | vStr s => .ok (tableGet DEALTYPE_MAP s, none)
    | vAssocs _ => .error "TypeError: unhashable type"
    | _ => .ok (vNull, none)
  | .dealstageLookup, v, _ =>
    match v with
    | vStr s => .ok (tableGet DEALSTAGE_MAP s, none)
    | vAssocs _ => .error "TypeError: unhashable type"
    | _ => .ok (vNull, none)
  | .closedate, v, _ =>
    if truthy v then
      match v with
      | vStr s =>
        .ok (vStr (String.mk (((s.data.map (fun c => if c = 'T' then ' ' else c)).filter
          (fun c => !(c = 'Z'))))), none)
      | _ => .error "AttributeError: object has no attribute replace"
    else .ok (vStr now, none)

def ACCOUNTS_NAME_COLUMN : String := "Account Name"
def COMPANY_ID_COLUMN : String := "company_id"

/-- `ACCOUNT_FIELDS_MAP` from `src/field_mapping.py`. -/
def ACCOUNT_FIELDS_MAP : FieldsMap :=
  [(ACCOUNTS_NAME_COLUMN, { src_field := "name", required := true }),
   ("Account Website", { src_field := "domain", transform_fun := some .httpsConcat }),
   ("Account Billing Street", { src_field := "address", transform_fun := some .splitStreet }),
   ("Account Billing City", { src_field := "address", transform_fun := some .ctxCity }),
   ("Account Billing Zip/Postal Code", { src_field := "address", transform_fun := some .ctxZip }),
   ("Account Billing Country", { src_field := "country" })]

/-- `CONTACT_FIELDS_MAP` from `src/field_mapping.py`. -/
def CONTACT_FIELDS_MAP : FieldsMap :=
  [(COMPANY_ID_COLUMN,
      { src_field := "associations_companies_results", transform_fun := some .assocId, required := true }),
   ("Contact First Name", { src_field := "firstname", required := true }),
   ("Contact Last Name", { src_field := "lastname", required := true }),
   ("Contact Phone", { src_field := "phone" }),
   ("Contact Email", { src_field := "email" }),
   ("Contact Title", { src_field := "jobtitle" }),
   ("Contact Mailing Street", { src_field := "address", transform_fun := some .splitStreet }),
   ("Contact Mailing City", { src_field := "address", transform_fun := some .ctxCity }),
   ("Contact Mailing Zip/Postal Code", { src_field := "address", transform_fun := some .ctxZip }),
   ("Contact Mailing Country", { src_field := "country" })]

/-- `DEAL_FIELDS_MAP` from `src/field_mapping.py`. -/
def DEAL_FIELDS_MAP : FieldsMap :=
  [(COMPANY_ID_COLUMN,
      { src_field := "associations_companies_results", transform_fun := some .assocId, required := true }),
   ("Name", { src_field := "dealname", required := true }),
   ("Type", { src_field := "dealtype", transform_fun := some .dealtypeLookup }),
   ("Stage", { src_field := "dealstage", transform_fun := some .dealstageLookup, required := true }),
   ("Amount", { src_field := "amount" }),
   ("Close Date", { src_field := "closedate", transform_fun := some .closedate, required := true })]

/-- The loop body of `build_attrs`, threading the context and the
accumulated attributes through the remaining mappings. -/
def buildAttrsAux (now : String) : FieldsMap → Dict → Dict → Dict → Except String Dict
  | [], _, _, attrs => .ok attrs
  | (lbl, f) :: rest, rec, ctx, attrs =>
    match f.transform_fun with
    | some t => do
      let (v, patch) ← evalTransform now t (dictGet rec f.src_field) ctx
      let ctx' := match patch with
        | some p => dictMerge ctx p
        | none => ctx
      buildAttrsAux now rest rec ctx' (dictUpsert attrs lbl v)
    | none =>
      buildAttrsAux now rest rec ctx (dictUpsert attrs lbl (dictGet rec f.src_field))

/-- `build_attrs` from `src/field_mapping.py`: evaluate the mappings in
declared order with an empty initial context and empty attribute set. -/
def build_attrs (now : String) (fields_map : FieldsMap) (hs_record : Dict) : Except String Dict :=
  buildAttrsAux now fields_map hs_record [] []

/-- `first_missing_field` from `src/field_mapping.py`: the first mapping
in declared order that is required and whose attribute value is falsy. -/
def first_missing_field : FieldsMap → Dict → Option (String × String)
  | [], _ => none
  | (lbl, f) :: rest, attrs =>
    if f.required && !truthy (dictGet attrs lbl) then some (f.src_field, lbl)
    else first_missing_field rest attrs

/-! ## Company store (`src/infra/companies_db.py`)

The sqlite `companies` table is modelled as a list of `Company` rows in
insertion order; queries without an `ORDER BY` fetch in that order. -/

/-- One row of the `companies` table. -/
structure Company where
  id : String
  attrs : Dict
  name : String
  duplicate : Bool
deriving DecidableEq, Repr

abbrev CompanyStore := List Company

/-- `get_company`: raises on a falsy id, returns the attrs/duplicate pair
of the row whose `id` equals the given value, raises `Company not found`
when no row matches. A non-string id value never matches a text column. -/
def get_company (store : CompanyStore) (id : Value) : Except String (Dict × Bool) :=
  if !truthy id then .error "No id provided"
  else
    match store.find? (fun c => vStr c.id = id) with
    | some c => .ok (c.attrs, c.duplicate)
    | none => .error "Company not found"

/-- The first name that repeats in the list (Python's seen-set walk),
`none` when the list has no repetition. -/
def firstRepeated (seen : List String) : List String → Option String
  | [] => none
  | n :: rest => if n ∈ seen then some n else firstRepeated (n :: seen) rest

/-- String-to-string association map with Python dict assignment. -/
def mapAssign (m : List (String × String)) (k v : String) : List (String × String) :=
  if m.any (fun p => p.1 = k) then
    m.map (fun p => if p.1 = k then (k, v) else p)
  else
    m ++ [(k, v)]

def mapLookup (m : List (String × String)) (k : String) : Option String :=
  (m.find? (fun p => p.1 = k)).map (fun p => p.2)

/-- `find_companies_by_name`: fails on an empty list and on a repeated
name; otherwise fetches the non-duplicate rows whose name is in the list,
builds a name-to-id dict (later rows overwrite earlier ones) and returns
the ids aligned with the input positions, `none` for misses. -/
def find_companies_by_name (store : CompanyStore) (name_list : List String) :
    Except String (List (Option String)) :=
  if name_list.isEmpty then .error "No names list provided"
  else
    match firstRepeated [] name_list with
    | some n => .error ("Duplicate names in list: \"" ++ n ++ "\"")
    | none =>
      let found := store.filter (fun c => decide (c.name ∈ name_list) && !c.duplicate)
      let name_to_id := found.foldl (fun m c => mapAssign m c.name c.id) []
      .ok (name_list.map (fun n => mapLookup name_to_id n))

/-- `add_companies`: fails on an empty batch, on a record with empty
attrs, and (via the sqlite primary key) on an id already present in the
store or occurring twice in the batch; otherwise appends all rows. -/
def add_companies (store : CompanyStore) (recs : List (String × Dict × String × Bool)) :
    Except String CompanyStore :=
  if recs.isEmpty then .error "No companies provided"
  else
    match recs.find? (fun r => r.2.1.isEmpty) with
    | some r => .error ("No attrs provided for company with id " ++ r.1)
    | none =>
      if recs.any (fun r => store.any (fun c => c.id = r.1)) ||
         !(recs.map (fun r => r.1)).Nodup then
        .error "IntegrityError: UNIQUE constraint failed: companies.id"
      else
        .ok (store ++ recs.map (fun r => ⟨r.1, r.2.1, r.2.2.1, r.2.2.2⟩))

/-! ## Batch company persistence (`_persist_company` in `src/translator.py`) -/

/-- The dedup walk of `_persist_company`: annotate each `(id, attrs,
name)` entry with its duplicate flag, looked up in the name-to-existed
map from the store query or in the names already seen in this walk. -/
def walkFlags (db : List (String × Bool)) (seen : List String) :
    List (String × Dict × String) → List (String × Dict × String × Bool)
  | [] => []
  | (cid, attrs, name) :: rest =>
    let dup := (match (db.find? (fun p => p.1 = name)).map (fun p => p.2) with
      | some b => b
      | none => false) || decide (name ∈ seen)
    (cid, attrs, name, dup) :: walkFlags db (name :: seen) rest

/-- Python `bool(x)` for an id returned by the name lookup: `None` is
falsy, and so is the empty string (`bool("")` is `False`). -/
def pyBoolOptStr : Option String → Bool
  | none => false
  | some s => !(s = "")

/-- `_persist_company` after attribute building: compute the distinct
batch names, query the store once for existing non-duplicate holders of
each name (`bool(found)` on the returned id), walk the batch in order
flagging duplicates, and insert all records with their flags. -/
def persistCompanyBatch (store : CompanyStore) (batch : List (String × Dict × String)) :
    Except String CompanyStore := do
  let uniq_names := (batch.map (fun r => r.2.2)).dedup
  let ids_seen_before ← find_companies_by_name store uniq_names
  let name_to_duplicate_db := uniq_names.zip (ids_seen_before.map pyBoolOptStr)
  let flagged := walkFlags name_to_duplicate_db [] batch
  add_companies store flagged

/-! ## Join/partition passes (`src/translator.py`) -/

def ERROR_COLUMN : String := "Error"
def OPPORTUNITIES_ACCOUNT_NAME_COLUMN : String := "Next Step"
def DUPLICATE_COMPANY_MESSAGE : String := "Duplicate company name (Account Name)"
def MISSING_VALUE_TEMPLATE : String := "Missing value $url_path$ $hs_name$ ($sf_label$)"

def hubspot_api_companies_path : String := "/crm/objects/v3/companies"
def hubspot_api_contacts_path : String := "/crm/objects/v3/contacts"
def hubspot_api_deals_path : String := "/crm/objects/v3/deals"

def contacts_filename : String := "contacts.parquet"
def deals_filename : String := "deals.parquet"
def companies_filename : String := "companies.sqlite"

/-- `_build_missing_field_error`: instantiate the MISSING_VALUE template
with the url path, the source field and the target label. -/
def buildMissingFieldError (missing : String × String) (path : String) : String :=
  ((MISSING_VALUE_TEMPLATE.replace "$url_path$" path).replace
    "$hs_name$" missing.1).replace "$sf_label$" missing.2

/-- `_normalize_csv_empty_values`: `None` becomes the empty string. -/
def normalizeRow (row : Dict) : Dict :=
  row.map (fun p => (p.1, match p.2 with | vNull => vStr "" | v => v))

/-- The labels of a field table, in declaration order. -/
def fmLabels (fm : FieldsMap) : List String := fm.map (fun p => p.1)

/-- The outcome of processing one child row: an optional diagnostic and
the normalized output row (without the `Error` column). -/
structure ProcessedRow where
  diag : Option String
  out : Dict
deriving DecidableEq, Repr

/-- The per-contact body of `_build_accounts_contacts`: stage a child
MISSING_VALUE diagnostic, pop the company id, join the company attrs
under the row when the id is truthy, then run the company-side checks
only when no diagnostic is staged, and normalize. -/
def processContactRow (store : CompanyStore) (row : Dict) : Except String ProcessedRow := do
  let err0 := (first_missing_field CONTACT_FIELDS_MAP row).map
    (fun m => buildMissingFieldError m hubspot_api_contacts_path)
  let (company_id, row1) ← dictPop row COMPANY_ID_COLUMN
  if truthy company_id then do
    let (company_attrs, dup) ← get_company store company_id
    let row2 := dictMerge company_attrs row1
    let err :=
      match err0 with
      | some e => some e
      | none =>
        match first_missing_field ACCOUNT_FIELDS_MAP company_attrs with
        | some m => some (buildMissingFieldError m hubspot_api_companies_path)
        | none => if dup then some DUPLICATE_COMPANY_MESSAGE else none
    .ok ⟨err, normalizeRow row2⟩
  else
    .ok ⟨err0, normalizeRow row1⟩

/-- The per-deal body of `_build_opportunities`: same shape as the
contact pass, but only the company display name is copied into the
dedicated output column. -/
def processDealRow (store : CompanyStore) (row : Dict) : Except String ProcessedRow := do
  let err0 := (first_missing_field DEAL_FIELDS_MAP row).map
    (fun m => buildMissingFieldError m hubspot_api_deals_path)
  let (company_id, row1) ← dictPop row COMPANY_ID_COLUMN
  if truthy company_id then do
    let (company_attrs, dup) ← get_company store company_id
    let company_name ← dictGetItem company_attrs ACCOUNTS_NAME_COLUMN
    let row2 := dictUpsert row1 OPPORTUNITIES_ACCOUNT_NAME_COLUMN company_name
    let err :=
      match err0 with
      | some e => some e
      | none =>
        match first_missing_field ACCOUNT_FIELDS_MAP company_attrs with
        | some m => some (buildMissingFieldError m hubspot_api_companies_path)
        | none => if dup then some DUPLICATE_COMPANY_MESSAGE else none
    .ok ⟨err, normalizeRow row2⟩
  else
    .ok ⟨err0, normalizeRow row1⟩

/-- One written CSV file: a header line and the data rows. -/
structure CsvFile where
  header : List String
  rows : List Dict
deriving DecidableEq, Repr

/-- The running totals of one pass. -/
structure PassStats where
  total_rows : Nat
  error_rows : Nat
deriving DecidableEq, Repr

/-- The artifacts of one pass after reaching the closed state: the valid
file is always present, the error file only when it received rows. -/
structure PassResult where
  outFile : CsvFile
  errFile : Option CsvFile
  stats : PassStats
deriving DecidableEq, Repr

/-- The streaming loop of a pass: process each row, append the `Error`
column and route to the error rows on a diagnostic, else route to the
valid rows, incrementing the totals. -/
def runPassAux (process : Dict → Except String ProcessedRow) :
    List Dict → List Dict → List Dict → Nat → Nat →
    Except String (List Dict × List Dict × Nat × Nat)
  | [], accV, accE, total, errs => .ok (accV.reverse, accE.reverse, total, errs)
  | r :: rest, accV, accE, total, errs => do
    let pr ← process r
    match pr.diag with
    | some e =>
      runPassAux process rest accV (dictUpsert pr.out ERROR_COLUMN (vStr e) :: accE)
        (total + 1) (errs + 1)
    | none =>
      runPassAux process rest (pr.out :: accV) accE (total + 1) errs

/-- Close a pass: package the two files, deleting the error file when it
received zero rows. -/
def closePass (header : List String) (res : List Dict × List Dict × Nat × Nat) : PassResult :=
  { outFile := ⟨header, res.1⟩,
    errFile := if res.2.2.2 = 0 then none else some ⟨ERROR_COLUMN :: header, res.2.1⟩,
    stats := ⟨res.2.2.1, res.2.2.2⟩ }

/-- Header of `accounts_contacts.csv`: account labels then contact labels
minus the company-id pseudo-column. -/
def accountsContactsFieldNames : List String :=
  fmLabels ACCOUNT_FIELDS_MAP ++ (fmLabels CONTACT_FIELDS_MAP).erase COMPANY_ID_COLUMN

/-- Header of `opportunities.csv`: deal labels minus the company-id
pseudo-column, plus the linked-account-name column. -/
def opportunitiesFieldNames : List String :=
  (fmLabels DEAL_FIELDS_MAP).erase COMPANY_ID_COLUMN ++ [OPPORTUNITIES_ACCOUNT_NAME_COLUMN]

/-- `_build_accounts_contacts` on the already-buffered contact rows. -/
def buildAccountsContacts (store : CompanyStore) (contactRows : List Dict) :
    Except String PassResult := do
  let res ← runPassAux (processContactRow store) contactRows [] [] 0 0
  .ok (closePass accountsContactsFieldNames res)

/-- `_build_opportunities` on the already-buffered deal rows. -/
def buildOpportunities (store : CompanyStore) (dealRows : List Dict) :
    Except String PassResult := do
  let res ← runPassAux (processDealRow store) dealRows [] [] 0 0
  .ok (closePass opportunitiesFieldNames res)

/-- The prerequisite-file loop at the top of `build_sf_csvs`: raise on
the first filename in the fixed order that does not exist. -/
def checkIntermediateFiles (fileExists : String → Bool) : List String → Except String Unit
  | [] => .ok ()
  | f :: rest =>
    if fileExists f then checkIntermediateFiles fileExists rest
    else .error ("No " ++ f ++ " file found")

/-- The filenames checked by `build_sf_csvs`, in check order. -/
def intermediateFilenames : List String :=
  [contacts_filename, deals_filename, companies_filename]

/-- The aggregate counters returned by `build_sf_csvs`. -/
structure AggregatedStats where
  accounts_contacts_total_rows : Nat
  accounts_contacts_valid_rows : Nat
  accounts_contacts_error_rows : Nat
  opportunities_total_rows : Nat
  opportunities_valid_rows : Nat
  opportunities_error_rows : Nat
deriving DecidableEq, Repr

/-- `build_sf_csvs`: check the intermediate files once up front, then run
the two passes and aggregate their counters. -/
def build_sf_csvs (fileExists : String → Bool) (store : CompanyStore)
    (contactRows dealRows : List Dict) : Except String AggregatedStats := do
  let _ ← checkIntermediateFiles fileExists intermediateFilenames
  let ac ← buildAccountsContacts store contactRows
  let op ← buildOpportunities store dealRows
  .ok { accounts_contacts_total_rows := ac.stats.total_rows,
        accounts_contacts_valid_rows := ac.stats.total_rows - ac.stats.error_rows,
        accounts_contacts_error_rows := ac.stats.error_rows,
        opportunities_total_rows := op.stats.total_rows,
        opportunities_valid_rows := op.stats.total_rows - op.stats.error_rows,
        opportunities_error_rows := op.stats.error_rows }

/-! ## Auxiliary definitions used by the claim statements -/

/-- Substring test: does `hay` contain `needle` as a contiguous run? -/
def hasSubstr (hay needle : String) : Bool :=
  (List.range (hay.data.length + 1)).any (fun i => needle.data.isPrefixOf (hay.data.drop i))

/-- The store part of the dedup flag: the name lookup returns the id of
the most recently inserted non-duplicate company with that name (later
fetched rows overwrite earlier ones in the name-to-id dict), and the
code takes that id's Python truthiness — false when no such company
exists and also when its id is the empty string. -/
def storeNameExisted (store : CompanyStore) (name : String) : Bool :=
  match store.reverse.find? (fun c => c.name = name && !c.duplicate) with
  | some c => !(c.id = "")
  | none => false

/-- The duplicate flag the dedup walk assigns to a record named `name`,
given the store at the start of the batch and the names of the earlier
records of the same batch: true iff the name lookup against the store
returns a truthy id or an earlier batch record claimed the name. -/
def specDupFlag (store : CompanyStore) (prevNames : List String) (name : String) : Bool :=
  storeNameExisted store name || decide (name ∈ prevNames)

/-- The store rows the dedup invariant prescribes for a batch, walked in
arrival order. -/
def specAnnotate (store : CompanyStore) (prev : List String) :
    List (String × Dict × String) → List Company
  | [] => []
  | (cid, attrs, name) :: rest =>
    ⟨cid, attrs, name, specDupFlag store prev name⟩ :: specAnnotate store (name :: prev) rest

/-- Whether a row receives a diagnostic under the given row processor
(false also for rows on which the processor raises). -/
def diagFlag (process : Dict → Except String ProcessedRow) (r : Dict) : Bool :=
  match process r with
  | .ok pr => pr.diag.isSome
  | .error _ => false

/-! ## Helper lemmas -/

instance {ε α : Type} [DecidableEq ε] [DecidableEq α] : DecidableEq (Except ε α) := fun a b =>
  match a, b with
  | .ok x, .ok y =>
    if h : x = y then .isTrue (congrArg Except.ok h)
    else .isFalse (fun hh => h (Except.ok.inj hh))
  | .error x, .error y =>
    if h : x = y then .isTrue (congrArg Except.error h)
    else .isFalse (fun hh => h (Except.error.inj hh))
  | .ok _, .error _ => .isFalse (fun hh => Except.noConfusion hh)
  | .error _, .ok _ => .isFalse (fun hh => Except.noConfusion hh)

@[simp] lemma exceptBind_ok {α β : Type} (a : α) (f : α → Except String β) :
    (Except.ok a >>= f) = f a := rfl

@[simp] lemma exceptBind_error {α β : Type} (e : String) (f : α → Except String β) :
    ((Except.error e : Except String α) >>= f) = Except.error e := rfl

lemma parse_address_eq_parseFromSegs (a : String) :
    parse_address a = parseFromSegs (strSplitOn ',' (normalizeAddress a)) := by
  unfold parse_address
  by_cases h : a = ""
  · subst h
    simp only [if_pos rfl]
    decide
  · simp only [if_neg h]
    by_cases h2 : normalizeAddress a = ""
    · rw [h2]
      simp only [if_pos rfl]
      decide
    · simp only [if_neg h2]

lemma getLastD_append_single (l : List String) (a d : String) :
    (l ++ [a]).getLastD d = a := by
  induction l with
  | nil => rfl
  | cons x xs ih =>
    cases xs with
    | nil => rfl
    | cons y ys => simpa using ih

/-! ## Claim theorems -/

/-- C5: `parse_address`, for every input string, fails (returns three
nulls) unless the comma split of the normalized input yields exactly two
segments and the second segment has at least two space-separated tokens;
otherwise the first token starts the postal code, the last token ends the
city, and the interior tokens before the first purely-alphabetic one join
the postal code while that token and everything after it join the city;
moreover the four concrete examples of the specification hold. -/
theorem claim_C5_parse_address_characterization :
    (∀ a : String, parse_address a = parseFromSegs (strSplitOn ',' (normalizeAddress a))) ∧
    (∀ segs : List String, segs.length ≠ 2 → parseFromSegs segs = (none, none, none)) ∧
    (∀ street zipCity : String, (strSplitOn ' ' (stripStr zipCity)).length < 2 →
      parseFromSegs [street, zipCity] = (none, none, none)) ∧
    (∀ (street zipCity first lastTok : String) (mid : List String),
      strSplitOn ' ' (stripStr zipCity) = first :: (mid ++ [lastTok]) →
      parseFromSegs [street, zipCity] =
        (some (joinWithSpace (mid.dropWhile (fun t => !strIsAlpha t) ++ [lastTok])),
         some street,
         some (joinWithSpace (first :: mid.takeWhile (fun t => !strIsAlpha t))))) ∧
    parse_address "Main Street 42, 10115 Berlin" =
      (some "Berlin", some "Main Street 42", some "10115") ∧
    parse_address "Baker Street 10, SW1A 1AA London" =
      (some "London", some "Baker Street 10", some "SW1A 1AA") ∧
    parse_address "Hauptstraße 5 80331 München" = (none, none, none) ∧
    parse_address "" = (none, none, none) := by
  refine ⟨parse_address_eq_parseFromSegs, ?_, ?_, ?_, by decide, by decide, by decide, by decide⟩
  · intro segs h
    rcases segs with _ | ⟨a, _ | ⟨b, _ | ⟨c, tl⟩⟩⟩
    · rfl
    · rfl
    · exact absurd rfl h
    · rfl
  · intro street zipCity h
    show parseZipCity street zipCity = (none, none, none)
    unfold parseZipCity
    rcases htok : strSplitOn ' ' (stripStr zipCity) with _ | ⟨t, _ | ⟨u, rest⟩⟩
    · rfl
    · rfl
    · rw [htok] at h
      simp only [List.length_cons] at h
      omega
  · intro street zipCity first lastTok mid h
    show parseZipCity street zipCity =
      (some (joinWithSpace (mid.dropWhile (fun t => !strIsAlpha t) ++ [lastTok])),
       some street,
       some (joinWithSpace (first :: mid.takeWhile (fun t => !strIsAlpha t))))
    unfold parseZipCity
    rw [h]
    cases mid with
    | nil => simp
    | cons m0 mid' =>
      simp only [List.cons_append]
      have heq : m0 :: (mid' ++ [lastTok]) = (m0 :: mid') ++ [lastTok] := rfl
      have hlast : (m0 :: (mid' ++ [lastTok])).getLast?.getD "" = lastTok := by
        rw [heq, List.getLast?_concat]
        rfl
      have hdrop : (m0 :: (mid' ++ [lastTok])).dropLast = m0 :: mid' := by
        rw [heq, List.dropLast_concat]
      simp [hlast, hdrop]

/-- C5 witness: the characterization evaluated at concrete inputs. -/
theorem claim_C5_parse_address_characterization_witness :
    parseFromSegs ["a"] = (none, none, none) ∧
    parseFromSegs ["Baker Street 10", " SW1A 1AA London"] =
      (some (joinWithSpace ((["1AA"].dropWhile (fun t => !strIsAlpha t)) ++ ["London"])),
       some "Baker Street 10",
       some (joinWithSpace ("SW1A" :: ["1AA"].takeWhile (fun t => !strIsAlpha t)))) ∧
    parseFromSegs ["x", " 1"] = (none, none, none) := by
  refine ⟨?_, ?_, ?_⟩
  · exact claim_C5_parse_address_characterization.2.1 ["a"] (by decide)
  · exact claim_C5_parse_address_characterization.2.2.2.1
      "Baker Street 10" " SW1A 1AA London" "SW1A" "London" ["1AA"] (by decide)
  · exact claim_C5_parse_address_characterization.2.2.1 "x" " 1" (by decide)

/-- C6: `first_missing_field` returns the source field and target label
of the earliest-declared mapping that is required and whose attribute
value is falsy, and returns none exactly when no required mapping's
value is falsy. -/
theorem claim_C6_first_missing_required :
    (∀ (fm : FieldsMap) (attrs : Dict) (src lbl : String),
      first_missing_field fm attrs = some (src, lbl) →
      ∃ pre f post, fm = pre ++ (lbl, f) :: post ∧ f.src_field = src ∧
        f.required = true ∧ truthy (dictGet attrs lbl) = false ∧
        ∀ q ∈ pre, q.2.required = true → truthy (dictGet attrs q.1) = true) ∧
    (∀ (fm : FieldsMap) (attrs : Dict),
      first_missing_field fm attrs = none ↔
        ∀ q ∈ fm, q.2.required = true → truthy (dictGet attrs q.1) = true) := by
  constructor
  · intro fm attrs
    induction fm with
    | nil => intro src lbl h; simp [first_missing_field] at h
    | cons p rest ih =>
      intro src lbl h
      obtain ⟨l, f⟩ := p
      by_cases hc : (f.required && !truthy (dictGet attrs l)) = true
      · rw [first_missing_field, if_pos hc] at h
        obtain ⟨hsrc, hlbl⟩ : f.src_field = src ∧ l = lbl := by
          simpa using h
        subst hlbl
        refine ⟨[], f, rest, by simp, hsrc, ?_, ?_, by simp⟩
        · exact (Bool.and_eq_true _ _ ▸ hc).1
        · have := (Bool.and_eq_true _ _ ▸ hc).2
          simpa using this
      · rw [first_missing_field, if_neg hc] at h
        obtain ⟨pre, f', post, hfm, hsrc, hreq, hfalsy, hpre⟩ := ih src lbl h
        refine ⟨(l, f) :: pre, f', post, by rw [hfm]; rfl, hsrc, hreq, hfalsy, ?_⟩
        intro q hq hr
        rcases List.mem_cons.mp hq with hq1 | hq2
        · subst hq1
          simp only [Bool.and_eq_true, Bool.not_eq_true'] at hc
          by_contra hne
          exact hc ⟨hr, by simpa using hne⟩
        · exact hpre q hq2 hr
  · intro fm attrs
    induction fm with
    | nil => simp [first_missing_field]
    | cons p rest ih =>
      obtain ⟨l, f⟩ := p
      by_cases hc : (f.required && !truthy (dictGet attrs l)) = true
      · rw [first_missing_field, if_pos hc]
        simp only [Bool.and_eq_true, Bool.not_eq_true'] at hc
        constructor
        · intro h; exact absurd h (by simp)
        · intro h
          have := h (l, f) (by simp) hc.1
          rw [this] at hc
          exact absurd hc.2 (by simp)
      · rw [first_missing_field, if_neg hc]
        rw [ih]
        simp only [Bool.and_eq_true, Bool.not_eq_true'] at hc
        constructor
        · intro h q hq hr
          rcases List.mem_cons.mp hq with hq1 | hq2
          · subst hq1
            by_contra hne
            exact hc ⟨hr, by simpa using hne⟩
          · exact h q hq2 hr
        · intro h q hq hr
          exact h q (List.mem_cons_of_mem _ hq) hr

/-- C6 witness: the characterization evaluated at a concrete table and
attribute row. -/
theorem claim_C6_first_missing_required_witness :
    (∃ pre f post, CONTACT_FIELDS_MAP = pre ++ (("Contact First Name", f) : String × FieldMap) :: post ∧
      f.src_field = "firstname" ∧ f.required = true ∧
      truthy (dictGet [(COMPANY_ID_COLUMN, Value.vStr "1")] "Contact First Name") = false ∧
      ∀ q ∈ pre, q.2.required = true →
        truthy (dictGet [(COMPANY_ID_COLUMN, Value.vStr "1")] q.1) = true) ∧
    (first_missing_field ([] : FieldsMap) [] = none ↔
      ∀ q ∈ ([] : FieldsMap), q.2.required = true → truthy (dictGet [] q.1) = true) := by
  constructor
  · exact claim_C6_first_missing_required.1 CONTACT_FIELDS_MAP
      [(COMPANY_ID_COLUMN, Value.vStr "1")] "firstname" "Contact First Name" (by decide)
  · exact claim_C6_first_missing_required.2 [] []

/-- C10: `build_attrs` with the account field table succeeds only when
the record's `domain` field holds a string; when `domain` is null or
absent the `Account Website` transform concatenates `https://` with null
and evaluation fails with a type error rather than producing a null
attribute. -/
theorem claim_C10_account_website_domain :
    (∀ (now : String) (rec attrs : Dict),
      build_attrs now ACCOUNT_FIELDS_MAP rec = .ok attrs →
      ∃ s, dictGet rec "domain" = Value.vStr s) ∧
    (∀ (now : String) (rec : Dict), dictGet rec "domain" = Value.vNull →
      build_attrs now ACCOUNT_FIELDS_MAP rec = .error "TypeError: can only concatenate str") := by
  constructor
  · intro now rec attrs h
    rcases hd : dictGet rec "domain" with _ | s | n | l
    · rw [build_attrs, ACCOUNT_FIELDS_MAP] at h
      simp [buildAttrsAux, evalTransform, hd] at h
    · exact ⟨s, rfl⟩
    · rw [build_attrs, ACCOUNT_FIELDS_MAP] at h
      simp [buildAttrsAux, evalTransform, hd] at h
    · rw [build_attrs, ACCOUNT_FIELDS_MAP] at h
      simp [buildAttrsAux, evalTransform, hd] at h
  · intro now rec h
    rw [build_attrs, ACCOUNT_FIELDS_MAP]
    simp [buildAttrsAux, evalTransform, h]

/-- C10 witness: a record with a string domain succeeds (exhibiting the
string), a record with null domain fails, at concrete inputs. -/
theorem claim_C10_account_website_domain_witness :
    (∃ s, dictGet [("name", Value.vStr "A"), ("domain", Value.vStr "a.io")] "domain" = Value.vStr s) ∧
    build_attrs "N" ACCOUNT_FIELDS_MAP [("name", Value.vStr "A")] =
      .error "TypeError: can only concatenate str" := by
  constructor
  · exact claim_C10_account_website_domain.1 "N"
      [("name", Value.vStr "A"), ("domain", Value.vStr "a.io")]
      [("Account Name", Value.vStr "A"), ("Account Website", Value.vStr "https://a.io"),
       ("Account Billing Street", Value.vNull), ("Account Billing City", Value.vNull),
       ("Account Billing Zip/Postal Code", Value.vNull), ("Account Billing Country", Value.vNull)]
      (by decide)
  · exact claim_C10_account_website_domain.2 "N" [("name", Value.vStr "A")] (by decide)

/-- C3 counterexample: with every intermediate file absent, the check
fails with a message naming only the first file of the fixed order; the
message mentions neither of the two other missing files, and it is the
same message produced when only the contacts file is missing. -/
theorem claim_C3_counterexample :
    checkIntermediateFiles (fun _ => false) intermediateFilenames =
      .error ("No " ++ contacts_filename ++ " file found") ∧
    hasSubstr ("No " ++ contacts_filename ++ " file found") deals_filename = false ∧
    hasSubstr ("No " ++ contacts_filename ++ " file found") companies_filename = false ∧
    checkIntermediateFiles (fun f => !(f = contacts_filename)) intermediateFilenames =
      .error ("No " ++ contacts_filename ++ " file found") :=
  ⟨by decide, by decide, by decide, by decide⟩

/-- C3 amended: when the join phase starts, the presence of the three
intermediate files is checked once at the very beginning, before any
processing; if any are absent the run fails fatally with a message naming
the first missing file in the fixed order contacts, deals, companies
(rather than listing every missing file). -/
theorem claim_C3_amended :
    (∀ ex : String → Bool,
      checkIntermediateFiles ex intermediateFilenames = .ok () ↔
        ∀ f ∈ intermediateFilenames, ex f = true) ∧
    (∀ (ex : String → Bool) (f : String),
      intermediateFilenames.find? (fun g => !ex g) = some f →
      checkIntermediateFiles ex intermediateFilenames =
        .error ("No " ++ f ++ " file found")) ∧
    (∀ (ex : String → Bool) (store : CompanyStore) (cr dr : List Dict) (f : String),
      f ∈ intermediateFilenames → ex f = false →
      ∃ m, build_sf_csvs ex store cr dr = .error m) := by
  have key : ∀ ex : String → Bool,
      checkIntermediateFiles ex intermediateFilenames = .ok () ↔
        ∀ f ∈ intermediateFilenames, ex f = true := by
    intro ex
    cases h1 : ex contacts_filename <;> cases h2 : ex deals_filename <;>
      cases h3 : ex companies_filename <;>
      simp [checkIntermediateFiles, intermediateFilenames, h1, h2, h3]
  refine ⟨key, ?_, ?_⟩
  · intro ex f hf
    cases h1 : ex contacts_filename <;> cases h2 : ex deals_filename <;>
      cases h3 : ex companies_filename <;>
      rw [intermediateFilenames] at hf <;>
      simp only [List.find?, h1, h2, h3, Bool.not_false, Bool.not_true,
        Option.some.injEq, reduceCtorEq] at hf <;>
      (try subst hf) <;>
      simp [checkIntermediateFiles, intermediateFilenames, h1, h2, h3]
  · intro ex store cr dr f hf hex
    cases hc : checkIntermediateFiles ex intermediateFilenames with
    | error e =>
      refine ⟨e, ?_⟩
      rw [build_sf_csvs, hc]
      rfl
    | ok u =>
      exfalso
      cases u
      have := (key ex).mp hc f hf
      rw [hex] at this
      exact Bool.false_ne_true this

/-- C3 amended witness: the amended characterization evaluated with only
the deals file missing. -/
theorem claim_C3_amended_witness :
    checkIntermediateFiles (fun f => !(f = deals_filename)) intermediateFilenames =
      .error ("No " ++ deals_filename ++ " file found") ∧
    (∃ m, build_sf_csvs (fun f => !(f = deals_filename)) [] [] [] = .error m) := by
  constructor
  · exact claim_C3_amended.2.1 (fun f => !(f = deals_filename)) deals_filename (by decide)
  · exact claim_C3_amended.2.2 (fun f => !(f = deals_filename)) [] [] [] deals_filename
      (by decide) (by decide)

lemma evalTransform_now_indep {now now' : String} (t : Transform) (v : Value) (ctx : Dict)
    (h : t = .closedate → truthy v = true) :
    evalTransform now t v ctx = evalTransform now' t v ctx := by
  cases t
  · rfl
  · rfl
  · rfl
  · rfl
  · rfl
  · rfl
  · rfl
  · simp [evalTransform, h rfl]

lemma buildAttrsAux_now_indep {now now' : String} :
    ∀ (fm : FieldsMap) (rec ctx acc : Dict),
      (∀ p ∈ fm, p.2.transform_fun = some .closedate →
        truthy (dictGet rec p.2.src_field) = true) →
      buildAttrsAux now fm rec ctx acc = buildAttrsAux now' fm rec ctx acc := by
  intro fm
  induction fm with
  | nil => intro rec ctx acc _; rfl
  | cons p rest ih =>
    intro rec ctx acc h
    obtain ⟨lbl, f⟩ := p
    rw [buildAttrsAux, buildAttrsAux]
    cases htr : f.transform_fun with
    | none => exact ih rec ctx _ (fun q hq => h q (List.mem_cons_of_mem _ hq))
    | some t =>
      dsimp only
      have hev : evalTransform now t (dictGet rec f.src_field) ctx =
          evalTransform now' t (dictGet rec f.src_field) ctx := by
        apply evalTransform_now_indep
        intro ht
        subst ht
        exact h (lbl, f) (List.mem_cons_self _ _) htr
      rw [hev]
      cases hres : evalTransform now' t (dictGet rec f.src_field) ctx with
      | error e => rfl
      | ok vp =>
        simp only [exceptBind_ok]
        exact ih rec _ _ (fun q hq => h q (List.mem_cons_of_mem _ hq))

/-- C2 counterexample: `build_attrs` over the deal table is not a pure
function of the record — two runs differing only in the clock value
produce different outputs on a record with a falsy `closedate`. -/
theorem claim_C2_counterexample :
    build_attrs "2020-01-01 00:00:00" DEAL_FIELDS_MAP [] ≠
      build_attrs "2021-06-15 00:00:00" DEAL_FIELDS_MAP [] := by decide

/-- C2 amended: `parse_address` takes no run-varying input in this
embedding, and `build_attrs` with the account and contact tables is
independent of the clock for every record; with the deal table it is
independent of the clock exactly on records whose `closedate` value is
truthy (otherwise `_get_closedate` substitutes the current day's
midnight). -/
theorem claim_C2_amended :
    (∀ (now now' : String) (rec : Dict),
      build_attrs now ACCOUNT_FIELDS_MAP rec = build_attrs now' ACCOUNT_FIELDS_MAP rec) ∧
    (∀ (now now' : String) (rec : Dict),
      build_attrs now CONTACT_FIELDS_MAP rec = build_attrs now' CONTACT_FIELDS_MAP rec) ∧
    (∀ (now now' : String) (rec : Dict), truthy (dictGet rec "closedate") = true →
      build_attrs now DEAL_FIELDS_MAP rec = build_attrs now' DEAL_FIELDS_MAP rec) := by
  refine ⟨?_, ?_, ?_⟩
  · intro now now' rec
    apply buildAttrsAux_now_indep
    intro p hp hcd
    simp only [ACCOUNT_FIELDS_MAP, List.mem_cons, List.not_mem_nil, or_false] at hp
    rcases hp with rfl | rfl | rfl | rfl | rfl | rfl <;> exact absurd hcd (by decide)
  · intro now now' rec
    apply buildAttrsAux_now_indep
    intro p hp hcd
    simp only [CONTACT_FIELDS_MAP, List.mem_cons, List.not_mem_nil, or_false] at hp
    rcases hp with rfl | rfl | rfl | rfl | rfl | rfl | rfl | rfl | rfl | rfl <;>
      exact absurd hcd (by decide)
  · intro now now' rec h
    apply buildAttrsAux_now_indep
    intro p hp hcd
    simp only [DEAL_FIELDS_MAP, List.mem_cons, List.not_mem_nil, or_false] at hp
    rcases hp with rfl | rfl | rfl | rfl | rfl | rfl
    · exact absurd hcd (by decide)
    · exact absurd hcd (by decide)
    · exact absurd hcd (by decide)
    · exact absurd hcd (by decide)
    · exact absurd hcd (by decide)
    · exact h

/-- C2 amended witness: the deal-table clause evaluated on a record with
a truthy `closedate`. -/
theorem claim_C2_amended_witness :
    truthy (dictGet [("closedate", Value.vStr "2020-01-01T12:00:00Z")] "closedate") = true ∧
    build_attrs "A" DEAL_FIELDS_MAP [("closedate", Value.vStr "2020-01-01T12:00:00Z")] =
      build_attrs "B" DEAL_FIELDS_MAP [("closedate", Value.vStr "2020-01-01T12:00:00Z")] :=
  ⟨by decide, claim_C2_amended.2.2 "A" "B" _ (by decide)⟩

lemma find?_replace_self (m : List (String × String)) (k v : String) :
    (m.map (fun p => if p.1 = k then (k, v) else p)).find? (fun p => p.1 = k) =
      if m.any (fun p => p.1 = k) then some (k, v) else none := by
  induction m with
  | nil => rfl
  | cons p m ih =>
    by_cases hp : p.1 = k
    · simp [hp, ih]
    · have hd : (decide (p.1 = k)) = false := decide_eq_false hp
      simp only [List.map_cons, if_neg hp, List.find?, hd, List.any_cons, Bool.false_or]
      exact ih

lemma find?_replace_ne (m : List (String × String)) (k v k' : String) (h : ¬k' = k) :
    (m.map (fun p => if p.1 = k then (k, v) else p)).find? (fun p => p.1 = k') =
      m.find? (fun p => p.1 = k') := by
  induction m with
  | nil => rfl
  | cons p m ih =>
    by_cases hp : p.1 = k
    · have hpk : ¬p.1 = k' := by rw [hp]; exact fun hh => h hh.symm
      have hd1 : (decide (k = k')) = false := decide_eq_false (fun hh => h hh.symm)
      have hd2 : (decide (p.1 = k')) = false := decide_eq_false hpk
      simp only [List.map_cons, if_pos hp, List.find?, hd1, hd2]
      exact ih
    · by_cases hp' : p.1 = k'
      · have hd2 : (decide (p.1 = k')) = true := decide_eq_true hp'
        simp only [List.map_cons, if_neg hp, List.find?, hd2]
      · have hd2 : (decide (p.1 = k')) = false := decide_eq_false hp'
        simp only [List.map_cons, if_neg hp, List.find?, hd2]
        exact ih

lemma mapLookup_assign_self (m : List (String × String)) (k v : String) :
    mapLookup (mapAssign m k v) k = some v := by
  rw [mapAssign]
  by_cases hany : m.any (fun p => p.1 = k)
  · rw [if_pos hany, mapLookup, find?_replace_self, if_pos hany]
    rfl
  · rw [if_neg hany, mapLookup, List.find?_append]
    have hnone : m.find? (fun p => p.1 = k) = none := by
      rw [List.find?_eq_none]
      intro x hx hpx
      exact hany (List.any_eq_true.mpr ⟨x, hx, hpx⟩)
    simp [hnone]

lemma mapLookup_assign_ne (m : List (String × String)) (k v k' : String) (h : ¬k' = k) :
    mapLookup (mapAssign m k v) k' = mapLookup m k' := by
  rw [mapAssign]
  by_cases hany : m.any (fun p => p.1 = k)
  · rw [if_pos hany, mapLookup, find?_replace_ne m k v k' h, mapLookup]
  · rw [if_neg hany, mapLookup, List.find?_append, mapLookup]
    have hd1 : (decide (k = k')) = false := decide_eq_false (fun hh => h hh.symm)
    have hfind : List.find? (fun p => p.1 = k') [(k, v)] = none := by
      simp only [List.find?, hd1]
    rw [hfind, Option.or_none]

lemma mapLookup_foldl_assign :
    ∀ (l : List Company) (m : List (String × String)) (n : String),
      mapLookup (l.foldl (fun m c => mapAssign m c.name c.id) m) n =
        match l.reverse.find? (fun c => c.name = n) with
        | some c => some c.id
        | none => mapLookup m n := by
  intro l
  induction l with
  | nil => intro m n; rfl
  | cons c l ih =>
    intro m n
    rw [List.foldl_cons, ih, List.reverse_cons, List.find?_append]
    by_cases hn : c.name = n
    · cases hfind : l.reverse.find? (fun c => c.name = n) with
      | some d => simp [hfind]
      | none =>
        subst hn
        simp [hfind, mapLookup_assign_self]
    · cases hfind : l.reverse.find? (fun c => c.name = n) with
      | some d => simp [hfind]
      | none =>
        simp [hfind, hn, mapLookup_assign_ne m c.name c.id n (fun hh => hn hh.symm)]

lemma firstRepeated_eq_none :
    ∀ (l seen : List String),
      firstRepeated seen l = none ↔ l.Nodup ∧ ∀ x ∈ l, x ∉ seen := by
  intro l
  induction l with
  | nil => intro seen; simp [firstRepeated]
  | cons n rest ih =>
    intro seen
    by_cases hmem : n ∈ seen
    · simp only [firstRepeated, if_pos hmem]
      constructor
      · intro h; exact absurd h (by simp)
      · rintro ⟨-, hall⟩
        exact absurd (hall n (by simp)) (by simpa using hmem)
    · rw [firstRepeated, if_neg hmem, ih]
      constructor
      · rintro ⟨hnd, hall⟩
        refine ⟨List.nodup_cons.mpr ⟨?_, hnd⟩, ?_⟩
        · intro hn
          exact absurd (hall n hn) (by simp)
        · intro x hx
          rcases List.mem_cons.mp hx with rfl | hx2
          · exact hmem
          · intro hxs
            exact absurd (List.mem_cons_of_mem n hxs) (hall x hx2)
      · rintro ⟨hnd, hall⟩
        obtain ⟨hnr, hnd'⟩ := List.nodup_cons.mp hnd
        refine ⟨hnd', ?_⟩
        intro x hx hxs
        rcases List.mem_cons.mp hxs with rfl | hx2
        · exact hnr hx
        · exact hall x (List.mem_cons_of_mem n hx) hx2

/-- C7: `find_companies_by_name` fails for an empty name list and for any
list containing the same name twice; otherwise it returns a list
positionally aligned with the input where each position holds the id of a
company with that name and duplicate=false, or none exactly when no
non-duplicate company bears that name (duplicate-flagged companies are
never returned). -/
theorem claim_C7_find_companies_by_name :
    (∀ store : CompanyStore,
      find_companies_by_name store [] = .error "No names list provided") ∧
    (∀ (store : CompanyStore) (names : List String), ¬names.Nodup →
      ∃ e, find_companies_by_name store names = .error e) ∧
    (∀ (store : CompanyStore) (names : List String), names ≠ [] → names.Nodup →
      ∃ f : String → Option String,
        find_companies_by_name store names = .ok (names.map f) ∧
        ∀ n ∈ names,
          (∀ id, f n = some id →
            ∃ c ∈ store, c.id = id ∧ c.name = n ∧ c.duplicate = false) ∧
          (f n = none ↔ ∀ c ∈ store, c.name = n → c.duplicate = true)) := by
  refine ⟨fun store => rfl, ?_, ?_⟩
  · intro store names hnd
    have hne : names ≠ [] := by rintro rfl; exact hnd List.nodup_nil
    have hemp : names.isEmpty = false := by
      cases names with
      | nil => exact absurd rfl hne
      | cons a l => rfl
    cases hfr : firstRepeated [] names with
    | some n =>
      refine ⟨"Duplicate names in list: \"" ++ n ++ "\"", ?_⟩
      rw [find_companies_by_name, hemp, hfr]
      rfl
    | none =>
      exact absurd ((firstRepeated_eq_none names []).mp hfr).1 hnd
  · intro store names hne hnd
    have hemp : names.isEmpty = false := by
      cases names with
      | nil => exact absurd rfl hne
      | cons a l => rfl
    have hfr : firstRepeated [] names = none :=
      (firstRepeated_eq_none names []).mpr ⟨hnd, by simp⟩
    refine ⟨fun n => mapLookup
      ((store.filter (fun c => decide (c.name ∈ names) && !c.duplicate)).foldl
        (fun m c => mapAssign m c.name c.id) []) n, ?_, ?_⟩
    · rw [find_companies_by_name, hemp, hfr]
      rfl
    · intro n hn
      have hchar := mapLookup_foldl_assign
        (store.filter (fun c => decide (c.name ∈ names) && !c.duplicate)) [] n
      constructor
      · intro id hid
        have hid' : mapLookup ((store.filter
            (fun c => decide (c.name ∈ names) && !c.duplicate)).foldl
            (fun m c => mapAssign m c.name c.id) []) n = some id := hid
        rw [hchar] at hid'
        cases hfind : (store.filter
            (fun c => decide (c.name ∈ names) && !c.duplicate)).reverse.find?
            (fun c => c.name = n) with
        | none => rw [hfind] at hid'; exact absurd hid' (by simp [mapLookup])
        | some c =>
          rw [hfind] at hid'
          have hcid : c.id = id := by simpa using hid'
          have hcmem : c ∈ (store.filter
              (fun c => decide (c.name ∈ names) && !c.duplicate)).reverse :=
            List.mem_of_find?_eq_some hfind
          have hcname : c.name = n := by
            have := List.find?_some hfind
            simpa using this
          rw [List.mem_reverse, List.mem_filter] at hcmem
          obtain ⟨hcstore, hpred⟩ := hcmem
          have hdup : c.duplicate = false := by
            rcases Bool.and_eq_true .. |>.mp hpred with ⟨-, hd⟩
            simpa using hd
          exact ⟨c, hcstore, hcid, hcname, hdup⟩
      · show mapLookup ((store.filter
            (fun c => decide (c.name ∈ names) && !c.duplicate)).foldl
            (fun m c => mapAssign m c.name c.id) []) n = none ↔ _
        rw [hchar]
        cases hfind : (store.filter
            (fun c => decide (c.name ∈ names) && !c.duplicate)).reverse.find?
            (fun c => c.name = n) with
        | some c =>
          constructor
          · intro h; exact absurd h (by simp)
          · intro hall
            exfalso
            have hcmem : c ∈ (store.filter
                (fun c => decide (c.name ∈ names) && !c.duplicate)).reverse :=
              List.mem_of_find?_eq_some hfind
            have hcname : c.name = n := by
              have := List.find?_some hfind
              simpa using this
            rw [List.mem_reverse, List.mem_filter] at hcmem
            obtain ⟨hcstore, hpred⟩ := hcmem
            rcases Bool.and_eq_true .. |>.mp hpred with ⟨-, hd⟩
            have : c.duplicate = true := hall c hcstore hcname
            rw [this] at hd
            exact absurd hd (by simp)
        | none =>
          simp only [mapLookup, List.find?_nil]
          constructor
          · intro _ c hcstore hcname
            by_contra hdup
            have hdupf : c.duplicate = false := by
              cases hcd : c.duplicate with
              | false => rfl
              | true => exact absurd hcd hdup
            have hcfil : c ∈ (store.filter
                (fun c => decide (c.name ∈ names) && !c.duplicate)).reverse := by
              rw [List.mem_reverse, List.mem_filter]
              refine ⟨hcstore, ?_⟩
              rw [hcname, hdupf]
              simpa using hn
            have := List.find?_eq_none.mp hfind c hcfil
            simp [hcname] at this
          · intro _; rfl

/-- C7 witness: the characterization evaluated at a concrete store and
name list. -/
theorem claim_C7_find_companies_by_name_witness :
    (∃ e, find_companies_by_name [] ["N", "N"] = .error e) ∧
    (∃ f : String → Option String,
      find_companies_by_name
        [⟨"1", [("Account Name", Value.vStr "N")], "N", false⟩,
         ⟨"2", [("Account Name", Value.vStr "M")], "M", true⟩] ["N", "M"] =
          .ok (["N", "M"].map f) ∧
      ∀ n ∈ ["N", "M"],
        (∀ id, f n = some id →
          ∃ c ∈ [⟨"1", [("Account Name", Value.vStr "N")], "N", false⟩,
                 (⟨"2", [("Account Name", Value.vStr "M")], "M", true⟩ : Company)],
            c.id = id ∧ c.name = n ∧ c.duplicate = false) ∧
        (f n = none ↔
          ∀ c ∈ [⟨"1", [("Account Name", Value.vStr "N")], "N", false⟩,
                 (⟨"2", [("Account Name", Value.vStr "M")], "M", true⟩ : Company)],
            c.name = n → c.duplicate = true)) := by
  constructor
  · exact claim_C7_find_companies_by_name.2.1 [] ["N", "N"] (by decide)
  · exact claim_C7_find_companies_by_name.2.2
      [⟨"1", [("Account Name", Value.vStr "N")], "N", false⟩,
       ⟨"2", [("Account Name", Value.vStr "M")], "M", true⟩] ["N", "M"]
      (by decide) (by decide)

lemma find?_zip_map (g : String → Bool) :
    ∀ (l : List String) (n : String), n ∈ l →
      (l.zip (l.map g)).find? (fun p => p.1 = n) = some (n, g n) := by
  intro l
  induction l with
  | nil => intro n h; simp at h
  | cons a l ih =>
    intro n hn
    rw [List.map_cons, List.zip_cons_cons]
    by_cases ha : a = n
    · subst ha
      simp [List.find?]
    · have hd : (decide (a = n)) = false := decide_eq_false ha
      simp only [List.find?, hd]
      refine ih n ?_
      rcases List.mem_cons.mp hn with rfl | h2
      · exact absurd rfl ha
      · exact h2

lemma find?_congr {α : Type} (p q : α → Bool) (h : ∀ x, p x = q x) :
    ∀ l : List α, l.find? p = l.find? q := by
  intro l
  induction l with
  | nil => rfl
  | cons a l ih => rw [List.find?, List.find?, h a, ih]

lemma foldl_lookup_pyBool (store : CompanyStore) (names : List String) (n : String)
    (hn : n ∈ names) :
    pyBoolOptStr (mapLookup ((store.filter
      (fun c => decide (c.name ∈ names) && !c.duplicate)).foldl
      (fun m c => mapAssign m c.name c.id) []) n) = storeNameExisted store n := by
  rw [mapLookup_foldl_assign]
  have hf : (store.filter (fun c => decide (c.name ∈ names) && !c.duplicate)).reverse.find?
      (fun c => decide (c.name = n)) =
      store.reverse.find? (fun c => c.name = n && !c.duplicate) := by
    rw [← List.filter_reverse, List.find?_filter]
    apply find?_congr
    intro c
    by_cases hcn : c.name = n
    · rw [hcn]
      cases c.duplicate <;> simp [hn]
    · simp [hcn]
  rw [hf, storeNameExisted]
  cases hres : store.reverse.find? (fun c => c.name = n && !c.duplicate) with
  | some c => rfl
  | none => rfl

lemma specAnnotate_ids (store : CompanyStore) :
    ∀ (l : List (String × Dict × String)) (prev : List String),
      (specAnnotate store prev l).map (fun c => c.id) = l.map (fun r => r.1) := by
  intro l
  induction l with
  | nil => intro prev; rfl
  | cons r rest ih =>
    intro prev
    obtain ⟨cid, attrs, name⟩ := r
    rw [specAnnotate, List.map_cons, List.map_cons, ih]

lemma specAnnotate_length (store : CompanyStore) :
    ∀ (l : List (String × Dict × String)) (prev : List String),
      (specAnnotate store prev l).length = l.length := by
  intro l
  induction l with
  | nil => intro prev; rfl
  | cons r rest ih =>
    intro prev
    obtain ⟨cid, attrs, name⟩ := r
    rw [specAnnotate, List.length_cons, List.length_cons, ih]

lemma mem_specAnnotate (store : CompanyStore) :
    ∀ (l : List (String × Dict × String)) (prev : List String) (c : Company),
      c ∈ specAnnotate store prev l →
      ∃ r ∈ l, c.id = r.1 ∧ c.attrs = r.2.1 ∧ c.name = r.2.2 := by
  intro l
  induction l with
  | nil => intro prev c h; exact absurd h (List.not_mem_nil c)
  | cons r rest ih =>
    intro prev c h
    obtain ⟨cid, attrs, name⟩ := r
    rw [specAnnotate] at h
    rcases List.mem_cons.mp h with rfl | h2
    · exact ⟨(cid, attrs, name), List.mem_cons_self _ _, rfl, rfl, rfl⟩
    · obtain ⟨r0, hr0, he⟩ := ih (name :: prev) c h2
      exact ⟨r0, List.mem_cons_of_mem _ hr0, he⟩

lemma walkFlags_eq_specAnnotate (store : CompanyStore) (db : List (String × Bool)) :
    ∀ (l : List (String × Dict × String)) (seen : List String),
      (∀ n ∈ l.map (fun r => r.2.2),
        (match (db.find? (fun p => p.1 = n)).map (fun p => p.2) with
          | some b => b
          | none => false) = storeNameExisted store n) →
      walkFlags db seen l =
        (specAnnotate store seen l).map (fun c => (c.id, c.attrs, c.name, c.duplicate)) := by
  intro l
  induction l with
  | nil => intro seen _; rfl
  | cons r rest ih =>
    intro seen h
    obtain ⟨cid, attrs, name⟩ := r
    have hname := h name (by simp)
    have htail := ih (name :: seen)
      (fun n hn => h n (by rw [List.map_cons]; exact List.mem_cons_of_mem _ hn))
    rw [walkFlags, specAnnotate, List.map_cons, htail, hname]
    rfl

/-- C1 counterexample: the claimed iff fails in the source at a store
holding a non-duplicate company named `N` whose id is the empty string —
`bool("")` is `False`, so the next record named `N` is persisted with
`duplicate=false` even though a company with the same name and
`duplicate=false` already exists in the store. -/
theorem claim_C1_counterexample :
    persistCompanyBatch [⟨"", [("Account Name", Value.vStr "N")], "N", false⟩]
      [("a", [("Account Name", Value.vStr "N")], "N")] =
      .ok [⟨"", [("Account Name", Value.vStr "N")], "N", false⟩,
           ⟨"a", [("Account Name", Value.vStr "N")], "N", false⟩] ∧
    (∃ c ∈ [Company.mk "" [("Account Name", Value.vStr "N")] "N" false],
      c.name = "N" ∧ c.duplicate = false) :=
  ⟨by decide, by decide⟩

/-- C1 amended: for every nonempty batch inserted via `_persist_company`
(with well-formed attrs and fresh, distinct ids), the persisted rows
carry `duplicate=true` exactly when the name lookup against the store
returns a truthy id — i.e. a company with the same name and
`duplicate=false` exists in the store at the moment the batch is
processed and the most recently inserted such company's id is a
non-empty string — or an earlier record of the same batch has the same
name; in particular inserting `[A(name=N), B(name=N), C(name=M)]` into
an empty store yields the flags `false, true, false`. -/
theorem claim_C1_batch_dedup :
    (∀ (store : CompanyStore) (batch : List (String × Dict × String)),
      batch ≠ [] →
      (∀ r ∈ batch, r.2.1.isEmpty = false) →
      (∀ r ∈ batch, ∀ c ∈ store, ¬c.id = r.1) →
      (batch.map (fun r => r.1)).Nodup →
      persistCompanyBatch store batch = .ok (store ++ specAnnotate store [] batch)) ∧
    (∀ (store : CompanyStore) (prev : List String) (name : String),
      specDupFlag store prev name = true ↔
        ((∃ c, store.reverse.find? (fun c => c.name = name && !c.duplicate) = some c ∧
          ¬c.id = "") ∨ name ∈ prev)) ∧
    (∀ (store : CompanyStore) (name : String) (c : Company),
      store.reverse.find? (fun c => c.name = name && !c.duplicate) = some c →
      c ∈ store ∧ c.name = name ∧ c.duplicate = false) ∧
    persistCompanyBatch []
      [("a", [("Account Name", Value.vStr "N")], "N"),
       ("b", [("Account Name", Value.vStr "N")], "N"),
       ("c", [("Account Name", Value.vStr "M")], "M")] =
      .ok [⟨"a", [("Account Name", Value.vStr "N")], "N", false⟩,
           ⟨"b", [("Account Name", Value.vStr "N")], "N", true⟩,
           ⟨"c", [("Account Name", Value.vStr "M")], "M", false⟩] := by
  refine ⟨?_, ?_, ?_, by decide⟩
  · intro store batch hne hattrs hfresh hids
    have hmapne : batch.map (fun r => r.2.2) ≠ [] := by
      intro h
      exact hne (List.map_eq_nil_iff.mp h)
    have huniq_ne : (batch.map (fun r => r.2.2)).dedup ≠ [] :=
      fun h => hmapne ((List.dedup_eq_nil _).mp h)
    have hemp : (batch.map (fun r => r.2.2)).dedup.isEmpty = false := by
      cases hd : (batch.map (fun r => r.2.2)).dedup with
      | nil => exact absurd hd huniq_ne
      | cons a l => rfl
    have hfr : firstRepeated [] (batch.map (fun r => r.2.2)).dedup = none :=
      (firstRepeated_eq_none _ []).mpr ⟨List.nodup_dedup _, by simp⟩
    have hfind : find_companies_by_name store (batch.map (fun r => r.2.2)).dedup =
        .ok ((batch.map (fun r => r.2.2)).dedup.map (fun n => mapLookup
          ((store.filter (fun c =>
            decide (c.name ∈ (batch.map (fun r => r.2.2)).dedup) && !c.duplicate)).foldl
            (fun m c => mapAssign m c.name c.id) []) n)) := by
      rw [find_companies_by_name, hemp, hfr]
      rfl
    rw [persistCompanyBatch, hfind]
    simp only [exceptBind_ok]
    have hdb : ∀ n ∈ batch.map (fun r => r.2.2),
        (match (((batch.map (fun r => r.2.2)).dedup.zip
            (((batch.map (fun r => r.2.2)).dedup.map (fun n => mapLookup
              ((store.filter (fun c =>
                decide (c.name ∈ (batch.map (fun r => r.2.2)).dedup) && !c.duplicate)).foldl
                (fun m c => mapAssign m c.name c.id) []) n)).map
              pyBoolOptStr)).find? (fun p => p.1 = n)).map (fun p => p.2) with
          | some b => b
          | none => false) = storeNameExisted store n := by
      intro n hn
      have hnu : n ∈ (batch.map (fun r => r.2.2)).dedup := List.mem_dedup.mpr hn
      rw [List.map_map, find?_zip_map _ _ n hnu]
      show pyBoolOptStr (mapLookup _ n) = _
      exact foldl_lookup_pyBool store _ n hnu
    have hw := walkFlags_eq_specAnnotate store _ batch [] hdb
    rw [hw, add_companies]
    have hlen : ((specAnnotate store [] batch).map
        (fun c => (c.id, c.attrs, c.name, c.duplicate))).length = batch.length := by
      rw [List.length_map, specAnnotate_length]
    have hrecs_ne : ((specAnnotate store [] batch).map
        (fun c => (c.id, c.attrs, c.name, c.duplicate))).isEmpty = false := by
      cases hb : (specAnnotate store [] batch).map
          (fun c => (c.id, c.attrs, c.name, c.duplicate)) with
      | nil =>
        rw [hb] at hlen
        exact absurd (List.length_eq_zero.mp hlen.symm) hne
      | cons a l => rfl
    rw [hrecs_ne]
    have hmem_tup : ∀ r ∈ (specAnnotate store [] batch).map
        (fun c => (c.id, c.attrs, c.name, c.duplicate)),
        ∃ r0 ∈ batch, r.1 = r0.1 ∧ r.2.1 = r0.2.1 ∧ r.2.2.1 = r0.2.2 := by
      intro r hr
      obtain ⟨c, hc, rfl⟩ := List.mem_map.mp hr
      obtain ⟨r0, hr0, h1, h2, h3⟩ := mem_specAnnotate store batch [] c hc
      exact ⟨r0, hr0, h1, h2, h3⟩
    have hfa : ((specAnnotate store [] batch).map
        (fun c => (c.id, c.attrs, c.name, c.duplicate))).find?
        (fun r => r.2.1.isEmpty) = none := by
      rw [List.find?_eq_none]
      intro r hr
      obtain ⟨r0, hr0, -, h2, -⟩ := hmem_tup r hr
      rw [h2]
      rw [hattrs r0 hr0]
      simp
    rw [hfa]
    have hids' : (((specAnnotate store [] batch).map
        (fun c => (c.id, c.attrs, c.name, c.duplicate))).map (fun r => r.1)) =
        batch.map (fun r => r.1) := by
      rw [List.map_map]
      exact specAnnotate_ids store batch []
    have hanyf : (((specAnnotate store [] batch).map
        (fun c => (c.id, c.attrs, c.name, c.duplicate))).any
        (fun r => store.any (fun c => c.id = r.1))) = false := by
      rw [← Bool.not_eq_true, List.any_eq_true]
      rintro ⟨r, hr, hsa⟩
      rw [List.any_eq_true] at hsa
      obtain ⟨c, hc, hcid⟩ := hsa
      obtain ⟨r0, hr0, h1, -, -⟩ := hmem_tup r hr
      rw [h1] at hcid
      exact hfresh r0 hr0 c hc (by simpa using hcid)
    have hcond : (((specAnnotate store [] batch).map
        (fun c => (c.id, c.attrs, c.name, c.duplicate))).any
        (fun r => store.any (fun c => c.id = r.1)) ||
        !decide (((specAnnotate store [] batch).map
          (fun c => (c.id, c.attrs, c.name, c.duplicate))).map (fun r => r.1)).Nodup) =
        false := by
      rw [hanyf, hids']
      simp [hids]
    rw [hcond]
    simp only [Bool.false_eq_true, if_false]
    rw [List.map_map]
    have : ((fun r : String × Dict × String × Bool =>
        (⟨r.1, r.2.1, r.2.2.1, r.2.2.2⟩ : Company)) ∘
        (fun c : Company => (c.id, c.attrs, c.name, c.duplicate))) = id := by
      funext c
      rfl
    rw [this, List.map_id]
  · intro store prev name
    rw [specDupFlag, Bool.or_eq_true, decide_eq_true_eq, storeNameExisted]
    cases hf : store.reverse.find? (fun c => c.name = name && !c.duplicate) with
    | some c =>
      constructor
      · rintro (hid | hmem)
        · exact Or.inl ⟨c, rfl, by simpa using hid⟩
        · exact Or.inr hmem
      · rintro (⟨c', hc', hid⟩ | hmem)
        · obtain rfl : c = c' := Option.some.inj hc'
          exact Or.inl (by simpa using hid)
        · exact Or.inr hmem
    | none =>
      constructor
      · rintro (hfalse | hmem)
        · exact absurd hfalse (by simp)
        · exact Or.inr hmem
      · rintro (⟨c', hc', -⟩ | hmem)
        · exact absurd hc' (by simp)
        · exact Or.inr hmem
  · intro store name c h
    have hp := List.find?_some h
    have hm := List.mem_of_find?_eq_some h
    rw [List.mem_reverse] at hm
    obtain ⟨h1, h2⟩ : c.name = name ∧ c.duplicate = false := by simpa using hp
    exact ⟨hm, h1, h2⟩

/-- C1 witness: the general insertion theorem, the flag characterization
and the lookup grounding evaluated at concrete inputs. -/
theorem claim_C1_batch_dedup_witness :
    persistCompanyBatch [⟨"x", [("k", Value.vStr "v")], "N", false⟩]
      [("a", [("Account Name", Value.vStr "N")], "N"),
       ("b", [("Account Name", Value.vStr "M")], "M")] =
      .ok ([⟨"x", [("k", Value.vStr "v")], "N", false⟩] ++
        specAnnotate [⟨"x", [("k", Value.vStr "v")], "N", false⟩] []
          [("a", [("Account Name", Value.vStr "N")], "N"),
           ("b", [("Account Name", Value.vStr "M")], "M")]) ∧
    (specDupFlag [] ["Q"] "Q" = true ↔
      ((∃ c, ([] : CompanyStore).reverse.find?
          (fun c => c.name = "Q" && !c.duplicate) = some c ∧ ¬c.id = "") ∨
        "Q" ∈ ["Q"])) ∧
    ((Company.mk "x" [("k", Value.vStr "v")] "N" false) ∈
        [Company.mk "x" [("k", Value.vStr "v")] "N" false] ∧
      (Company.mk "x" [("k", Value.vStr "v")] "N" false).name = "N" ∧
      (Company.mk "x" [("k", Value.vStr "v")] "N" false).duplicate = false) := by
  refine ⟨?_, ?_, ?_⟩
  · exact claim_C1_batch_dedup.1 [⟨"x", [("k", Value.vStr "v")], "N", false⟩]
      [("a", [("Account Name", Value.vStr "N")], "N"),
       ("b", [("Account Name", Value.vStr "M")], "M")]
      (by decide) (by decide) (by decide) (by decide)
  · exact claim_C1_batch_dedup.2.1 [] ["Q"] "Q"
  · exact claim_C1_batch_dedup.2.2.1 [Company.mk "x" [("k", Value.vStr "v")] "N" false]
      "N" (Company.mk "x" [("k", Value.vStr "v")] "N" false) (by decide)

lemma dictPop_ok_get (d : Dict) (k : String) (v : Value) (r : Dict)
    (h : dictPop d k = .ok (v, r)) : dictGet d k = v := by
  rw [dictPop] at h
  cases hf : d.find? (fun p => p.1 = k) with
  | none => rw [hf] at h; exact absurd h (by simp)
  | some p =>
    rw [hf] at h
    rw [dictGet, hf]
    obtain ⟨h1, -⟩ := Prod.mk.inj (Except.ok.inj h)
    exact h1

lemma get_company_not_found (store : CompanyStore) (v : Value)
    (htv : truthy v = true) (habs : ∀ c ∈ store, ¬vStr c.id = v) :
    get_company store v = .error "Company not found" := by
  rw [get_company, htv]
  have hf : store.find? (fun c => vStr c.id = v) = none := by
    rw [List.find?_eq_none]
    intro c hc
    simpa using habs c hc
  rw [hf]
  rfl

/-- C4: for every child row processed by the join engine, the diagnostic
attached to an error row is the first discovered problem in the fixed
precedence child-missing-field, then company-missing-field, then
duplicate-company; in particular a child row missing its own required
field keeps its MISSING_VALUE diagnostic even when its parent company
also has a missing field or a duplicate flag, and a row carrying a
diagnostic is routed to the error file with that diagnostic prepended. -/
theorem claim_C4_diagnostic_precedence :
    (∀ (store : CompanyStore) (row : Dict) (m : String × String) (v : Value) (rest : Dict),
      first_missing_field CONTACT_FIELDS_MAP row = some m →
      dictPop row COMPANY_ID_COLUMN = .ok (v, rest) →
      (truthy v = false ∨ ∃ ca d, get_company store v = .ok (ca, d)) →
      ∃ out, processContactRow store row =
        .ok ⟨some (buildMissingFieldError m hubspot_api_contacts_path), out⟩) ∧
    (∀ (store : CompanyStore) (row : Dict) (m : String × String) (v : Value) (rest ca : Dict)
        (dup : Bool),
      first_missing_field CONTACT_FIELDS_MAP row = none →
      dictPop row COMPANY_ID_COLUMN = .ok (v, rest) →
      truthy v = true →
      get_company store v = .ok (ca, dup) →
      first_missing_field ACCOUNT_FIELDS_MAP ca = some m →
      processContactRow store row =
        .ok ⟨some (buildMissingFieldError m hubspot_api_companies_path),
             normalizeRow (dictMerge ca rest)⟩) ∧
    (∀ (store : CompanyStore) (row : Dict) (v : Value) (rest ca : Dict),
      first_missing_field CONTACT_FIELDS_MAP row = none →
      dictPop row COMPANY_ID_COLUMN = .ok (v, rest) →
      truthy v = true →
      get_company store v = .ok (ca, true) →
      first_missing_field ACCOUNT_FIELDS_MAP ca = none →
      processContactRow store row =
        .ok ⟨some DUPLICATE_COMPANY_MESSAGE, normalizeRow (dictMerge ca rest)⟩) ∧
    (∀ (store : CompanyStore) (row : Dict) (m : String × String) (v : Value) (rest : Dict),
      first_missing_field DEAL_FIELDS_MAP row = some m →
      dictPop row COMPANY_ID_COLUMN = .ok (v, rest) →
      (truthy v = false ∨
        ∃ ca d, get_company store v = .ok (ca, d) ∧
          ∃ nm, dictGetItem ca ACCOUNTS_NAME_COLUMN = .ok nm) →
      ∃ out, processDealRow store row =
        .ok ⟨some (buildMissingFieldError m hubspot_api_deals_path), out⟩) ∧
    (∀ (store : CompanyStore) (row : Dict) (m : String × String) (v nm : Value)
        (rest ca : Dict) (dup : Bool),
      first_missing_field DEAL_FIELDS_MAP row = none →
      dictPop row COMPANY_ID_COLUMN = .ok (v, rest) →
      truthy v = true →
      get_company store v = .ok (ca, dup) →
      dictGetItem ca ACCOUNTS_NAME_COLUMN = .ok nm →
      first_missing_field ACCOUNT_FIELDS_MAP ca = some m →
      processDealRow store row =
        .ok ⟨some (buildMissingFieldError m hubspot_api_companies_path),
             normalizeRow (dictUpsert rest OPPORTUNITIES_ACCOUNT_NAME_COLUMN nm)⟩) ∧
    (∀ (store : CompanyStore) (row : Dict) (v nm : Value) (rest ca : Dict),
      first_missing_field DEAL_FIELDS_MAP row = none →
      dictPop row COMPANY_ID_COLUMN = .ok (v, rest) →
      truthy v = true →
      get_company store v = .ok (ca, true) →
      dictGetItem ca ACCOUNTS_NAME_COLUMN = .ok nm →
      first_missing_field ACCOUNT_FIELDS_MAP ca = none →
      processDealRow store row =
        .ok ⟨some DUPLICATE_COMPANY_MESSAGE,
             normalizeRow (dictUpsert rest OPPORTUNITIES_ACCOUNT_NAME_COLUMN nm)⟩) := by
  refine ⟨?_, ?_, ?_, ?_, ?_, ?_⟩
  · intro store row m v rest hm hpop hco
    rw [processContactRow, hpop]
    simp only [exceptBind_ok, hm, Option.map_some']
    rcases hco with htv | ⟨ca, d, hget⟩
    · rw [htv]
      exact ⟨normalizeRow rest, rfl⟩
    · cases htv : truthy v with
      | false =>
        rw [if_neg (by simp)]
        exact ⟨normalizeRow rest, rfl⟩
      | true =>
        rw [if_pos rfl, hget]
        simp only [exceptBind_ok]
        exact ⟨normalizeRow (dictMerge ca rest), rfl⟩
  · intro store row m v rest ca dup hm hpop htv hget hcm
    rw [processContactRow, hpop]
    simp only [exceptBind_ok, hm, Option.map_none']
    rw [htv, if_pos rfl, hget]
    simp only [exceptBind_ok, hcm]
  · intro store row v rest ca hm hpop htv hget hcm
    rw [processContactRow, hpop]
    simp only [exceptBind_ok, hm, Option.map_none']
    rw [htv, if_pos rfl, hget]
    simp only [exceptBind_ok, hcm]
    rfl
  · intro store row m v rest hm hpop hco
    rw [processDealRow, hpop]
    simp only [exceptBind_ok, hm, Option.map_some']
    rcases hco with htv | ⟨ca, d, hget, nm, hnm⟩
    · rw [htv]
      exact ⟨normalizeRow rest, rfl⟩
    · cases htv : truthy v with
      | false =>
        rw [if_neg (by simp)]
        exact ⟨normalizeRow rest, rfl⟩
      | true =>
        rw [if_pos rfl, hget]
        simp only [exceptBind_ok]
        rw [hnm]
        simp only [exceptBind_ok]
        exact ⟨normalizeRow (dictUpsert rest OPPORTUNITIES_ACCOUNT_NAME_COLUMN nm), rfl⟩
  · intro store row m v nm rest ca dup hm hpop htv hget hnm hcm
    rw [processDealRow, hpop]
    simp only [exceptBind_ok, hm, Option.map_none']
    rw [htv, if_pos rfl, hget]
    simp only [exceptBind_ok]
    rw [hnm]
    simp only [exceptBind_ok, hcm]
  · intro store row v nm rest ca hm hpop htv hget hnm hcm
    rw [processDealRow, hpop]
    simp only [exceptBind_ok, hm, Option.map_none']
    rw [htv, if_pos rfl, hget]
    simp only [exceptBind_ok]
    rw [hnm]
    simp only [exceptBind_ok, hcm]
    rfl

/-- C4 witness: a contact row missing its own required first name whose
parent company is flagged duplicate still gets the child MISSING_VALUE
diagnostic. -/
theorem claim_C4_diagnostic_precedence_witness :
    ∃ out, processContactRow
      [⟨"1", [("Account Name", Value.vStr "Acme")], "Acme", true⟩]
      [("company_id", Value.vStr "1"), ("Contact First Name", Value.vStr ""),
       ("Contact Last Name", Value.vStr "Doe")] =
      .ok ⟨some (buildMissingFieldError ("firstname", "Contact First Name")
        hubspot_api_contacts_path), out⟩ := by
  refine claim_C4_diagnostic_precedence.1
    [⟨"1", [("Account Name", Value.vStr "Acme")], "Acme", true⟩]
    [("company_id", Value.vStr "1"), ("Contact First Name", Value.vStr ""),
     ("Contact Last Name", Value.vStr "Doe")]
    ("firstname", "Contact First Name") (Value.vStr "1")
    [("Contact First Name", Value.vStr ""), ("Contact Last Name", Value.vStr "Doe")]
    (by decide) (by decide)
    (Or.inr ⟨[("Account Name", Value.vStr "Acme")], true, by decide⟩)

lemma runPassAux_error_of_mem (process : Dict → Except String ProcessedRow) :
    ∀ (rows accV accE : List Dict) (t e : Nat),
      (∃ r ∈ rows, ∃ err, process r = .error err) →
      ∃ m, runPassAux process rows accV accE t e = .error m := by
  intro rows
  induction rows with
  | nil =>
    intro accV accE t e h
    obtain ⟨r, hr, -⟩ := h
    exact absurd hr (List.not_mem_nil r)
  | cons r0 rest ih =>
    intro accV accE t e h
    cases hp : process r0 with
    | error err =>
      refine ⟨err, ?_⟩
      rw [runPassAux, hp]
      rfl
    | ok pr =>
      obtain ⟨r, hr, err, herr⟩ := h
      rcases List.mem_cons.mp hr with rfl | hr2
      · rw [hp] at herr
        exact absurd herr (by simp)
      · rw [runPassAux, hp]
        simp only [exceptBind_ok]
        cases hd : pr.diag with
        | some e0 => exact ih _ _ _ _ ⟨r, hr2, err, herr⟩
        | none => exact ih _ _ _ _ ⟨r, hr2, err, herr⟩

lemma runPassAux_ok_counts (process : Dict → Except String ProcessedRow) :
    ∀ (rows accV accE : List Dict) (t e : Nat) (res : List Dict × List Dict × Nat × Nat),
      runPassAux process rows accV accE t e = .ok res →
      res.2.2.2 = e + rows.countP (diagFlag process) ∧
      res.2.2.1 = t + rows.length := by
  intro rows
  induction rows with
  | nil =>
    intro accV accE t e res h
    rw [runPassAux] at h
    have := Except.ok.inj h
    rw [← this]
    simp
  | cons r0 rest ih =>
    intro accV accE t e res h
    cases hp : process r0 with
    | error err =>
      rw [runPassAux, hp] at h
      exact absurd h (by simp)
    | ok pr =>
      rw [runPassAux, hp] at h
      simp only [exceptBind_ok] at h
      cases hd : pr.diag with
      | some e0 =>
        rw [hd] at h
        obtain ⟨h1, h2⟩ := ih _ _ _ _ _ h
        have hcp : diagFlag process r0 = true := by
          rw [diagFlag, hp]
          show pr.diag.isSome = true
          rw [hd]
          rfl
        rw [List.countP_cons_of_pos _ _ hcp]
        constructor
        · rw [h1]; omega
        · rw [h2, List.length_cons]; omega
      | none =>
        rw [hd] at h
        obtain ⟨h1, h2⟩ := ih _ _ _ _ _ h
        have hcp : diagFlag process r0 = false := by
          rw [diagFlag, hp]
          show pr.diag.isSome = false
          rw [hd]
          rfl
        rw [List.countP_cons_of_neg _ _ (by rw [hcp]; exact Bool.false_ne_true)]
        constructor
        · rw [h1]
        · rw [h2, List.length_cons]; omega

lemma pass_spec (process : Dict → Except String ProcessedRow) (header : List String) :
    ∀ (rows : List Dict) (res : PassResult),
      ((runPassAux process rows [] [] 0 0).bind
        (fun r => Except.ok (closePass header r))) = .ok res →
      ((res.errFile ≠ none) ↔
        ∃ r ∈ rows, ∃ pr, process r = .ok pr ∧ pr.diag ≠ none) ∧
      ((res.errFile ≠ none) ↔ res.stats.error_rows ≠ 0) ∧
      res.outFile.header = header ∧
      (∀ f, res.errFile = some f → f.header = ERROR_COLUMN :: header) ∧
      res.stats.total_rows = rows.length := by
  intro rows res h
  cases hrun : runPassAux process rows [] [] 0 0 with
  | error e =>
    rw [hrun] at h
    exact absurd h (by simp [Except.bind])
  | ok r0 =>
    rw [hrun] at h
    simp only [Except.bind] at h
    have hres : res = closePass header r0 := (Except.ok.inj h).symm
    obtain ⟨hcount, htotal⟩ := runPassAux_ok_counts process rows [] [] 0 0 r0 hrun
    have herr_iff : (res.errFile ≠ none) ↔ res.stats.error_rows ≠ 0 := by
      rw [hres, closePass]
      by_cases hz : r0.2.2.2 = 0
      · simp [hz]
      · simp [hz]
    have hcnt_iff : res.stats.error_rows ≠ 0 ↔
        ∃ r ∈ rows, ∃ pr, process r = .ok pr ∧ pr.diag ≠ none := by
      have hstats : res.stats.error_rows = r0.2.2.2 := by rw [hres]; rfl
      rw [hstats, hcount, Nat.zero_add]
      constructor
      · intro hne
        have hcz : ¬(rows.countP (diagFlag process) = 0) := hne
        rw [List.countP_eq_zero] at hcz
        push_neg at hcz
        obtain ⟨r, hr, hpr⟩ := hcz
        cases hp : process r with
        | error e =>
          exfalso
          simp only [diagFlag, hp] at hpr
          exact Bool.false_ne_true hpr
        | ok pr =>
          refine ⟨r, hr, pr, hp, ?_⟩
          simp only [diagFlag, hp] at hpr
          exact Option.isSome_iff_ne_none.mp hpr
      · rintro ⟨r, hr, pr, hp, hd⟩
        intro hzero
        rw [List.countP_eq_zero] at hzero
        have hz := hzero r hr
        simp only [diagFlag, hp] at hz
        exact hz (Option.isSome_iff_ne_none.mpr hd)
    refine ⟨herr_iff.trans hcnt_iff, herr_iff, ?_, ?_, ?_⟩
    · rw [hres]; rfl
    · intro f hf
      rw [hres, closePass] at hf
      by_cases hz : r0.2.2.2 = 0
      · rw [if_pos hz] at hf
        exact absurd hf (by simp)
      · rw [if_neg hz] at hf
        have hh := Option.some.inj hf
        rw [← hh]
    · rw [hres]
      show r0.2.2.1 = rows.length
      rw [htotal, Nat.zero_add]

/-- C9: a child row whose parent-id pseudo-column holds a truthy id that
matches no company in the store makes the whole pass fail fatally with
`Company not found` rather than being routed to the error stream, while
a falsy parent id is recovered as a row-level MISSING_VALUE diagnostic
referencing the parent-id pseudo-column; a pass containing such a fatal
row aborts with an error. -/
theorem claim_C9_unknown_parent_fatal :
    (∀ (store : CompanyStore) (row : Dict) (v : Value) (rest : Dict),
      dictPop row COMPANY_ID_COLUMN = .ok (v, rest) →
      truthy v = true →
      (∀ c ∈ store, ¬vStr c.id = v) →
      processContactRow store row = .error "Company not found" ∧
      processDealRow store row = .error "Company not found") ∧
    (∀ (store : CompanyStore) (row : Dict) (v : Value) (rest : Dict),
      dictPop row COMPANY_ID_COLUMN = .ok (v, rest) →
      truthy v = false →
      processContactRow store row =
        .ok ⟨some (buildMissingFieldError ("associations_companies_results", COMPANY_ID_COLUMN)
          hubspot_api_contacts_path), normalizeRow rest⟩ ∧
      processDealRow store row =
        .ok ⟨some (buildMissingFieldError ("associations_companies_results", COMPANY_ID_COLUMN)
          hubspot_api_deals_path), normalizeRow rest⟩) ∧
    (∀ (store : CompanyStore) (rows : List Dict),
      (∃ r ∈ rows, ∃ e, processContactRow store r = .error e) →
      ∃ m, buildAccountsContacts store rows = .error m) ∧
    (∀ (store : CompanyStore) (rows : List Dict),
      (∃ r ∈ rows, ∃ e, processDealRow store r = .error e) →
      ∃ m, buildOpportunities store rows = .error m) := by
  refine ⟨?_, ?_, ?_, ?_⟩
  · intro store row v rest hpop htv habs
    have hget := get_company_not_found store v htv habs
    constructor
    · rw [processContactRow, hpop]
      simp only [exceptBind_ok]
      rw [htv, if_pos rfl, hget]
      rfl
    · rw [processDealRow, hpop]
      simp only [exceptBind_ok]
      rw [htv, if_pos rfl, hget]
      rfl
  · intro store row v rest hpop hfv
    have hgetv : dictGet row COMPANY_ID_COLUMN = v := dictPop_ok_get row _ v rest hpop
    constructor
    · have hm : first_missing_field CONTACT_FIELDS_MAP row =
          some ("associations_companies_results", COMPANY_ID_COLUMN) := by
        rw [CONTACT_FIELDS_MAP, first_missing_field]
        rw [if_pos (by rw [hgetv, hfv]; rfl)]
      rw [processContactRow, hpop]
      simp only [exceptBind_ok, hm, Option.map_some']
      rw [hfv]
      rw [if_neg (by simp)]
    · have hm : first_missing_field DEAL_FIELDS_MAP row =
          some ("associations_companies_results", COMPANY_ID_COLUMN) := by
        rw [DEAL_FIELDS_MAP, first_missing_field]
        rw [if_pos (by rw [hgetv, hfv]; rfl)]
      rw [processDealRow, hpop]
      simp only [exceptBind_ok, hm, Option.map_some']
      rw [hfv]
      rw [if_neg (by simp)]
  · intro store rows h
    obtain ⟨m, hm⟩ := runPassAux_error_of_mem (processContactRow store) rows [] [] 0 0 h
    refine ⟨m, ?_⟩
    rw [buildAccountsContacts, hm]
    rfl
  · intro store rows h
    obtain ⟨m, hm⟩ := runPassAux_error_of_mem (processDealRow store) rows [] [] 0 0 h
    refine ⟨m, ?_⟩
    rw [buildOpportunities, hm]
    rfl

/-- C9 witness: a contact row pointing at an unknown company id is fatal,
a falsy id row is recovered, and the one-row pass aborts, at concrete
inputs. -/
theorem claim_C9_unknown_parent_fatal_witness :
    (processContactRow [] [("company_id", Value.vStr "9")] = .error "Company not found" ∧
     processDealRow [] [("company_id", Value.vStr "9")] = .error "Company not found") ∧
    (processContactRow [] [("company_id", Value.vNull)] =
      .ok ⟨some (buildMissingFieldError ("associations_companies_results", COMPANY_ID_COLUMN)
        hubspot_api_contacts_path), normalizeRow []⟩ ∧
     processDealRow [] [("company_id", Value.vNull)] =
      .ok ⟨some (buildMissingFieldError ("associations_companies_results", COMPANY_ID_COLUMN)
        hubspot_api_deals_path), normalizeRow []⟩) ∧
    (∃ m, buildAccountsContacts [] [[("company_id", Value.vStr "9")]] = .error m) := by
  refine ⟨?_, ?_, ?_⟩
  · exact claim_C9_unknown_parent_fatal.1 [] [("company_id", Value.vStr "9")]
      (Value.vStr "9") [] (by decide) (by decide) (by decide)
  · exact claim_C9_unknown_parent_fatal.2.1 [] [("company_id", Value.vNull)]
      Value.vNull [] (by decide) (by decide)
  · refine claim_C9_unknown_parent_fatal.2.2.1 [] [[("company_id", Value.vStr "9")]]
      ⟨[("company_id", Value.vStr "9")], by simp, "Company not found", ?_⟩
    exact (claim_C9_unknown_parent_fatal.1 [] [("company_id", Value.vStr "9")]
      (Value.vStr "9") [] (by decide) (by decide) (by decide)).1

/-- C8: for each join pass, after the engine reaches its closed state the
error-rows file exists iff at least one row received a diagnostic (it is
deleted when zero erroring rows occurred), while the valid-rows file
always exists with its header; the error header prepends the `Error`
column. -/
theorem claim_C8_error_file_presence :
    (∀ (store : CompanyStore) (rows : List Dict) (res : PassResult),
      buildAccountsContacts store rows = .ok res →
      ((res.errFile ≠ none) ↔
        ∃ r ∈ rows, ∃ pr, processContactRow store r = .ok pr ∧ pr.diag ≠ none) ∧
      ((res.errFile ≠ none) ↔ res.stats.error_rows ≠ 0) ∧
      res.outFile.header = accountsContactsFieldNames ∧
      (∀ f, res.errFile = some f →
        f.header = ERROR_COLUMN :: accountsContactsFieldNames) ∧
      res.stats.total_rows = rows.length) ∧
    (∀ (store : CompanyStore) (rows : List Dict) (res : PassResult),
      buildOpportunities store rows = .ok res →
      ((res.errFile ≠ none) ↔
        ∃ r ∈ rows, ∃ pr, processDealRow store r = .ok pr ∧ pr.diag ≠ none) ∧
      ((res.errFile ≠ none) ↔ res.stats.error_rows ≠ 0) ∧
      res.outFile.header = opportunitiesFieldNames ∧
      (∀ f, res.errFile = some f →
        f.header = ERROR_COLUMN :: opportunitiesFieldNames) ∧
      res.stats.total_rows = rows.length) := by
  constructor
  · intro store rows res h
    exact pass_spec (processContactRow store) accountsContactsFieldNames rows res h
  · intro store rows res h
    exact pass_spec (processDealRow store) opportunitiesFieldNames rows res h

/-- C8 witness: a one-row pass over a duplicate-flagged parent produces
an error file; the empty pass produces none; both with the expected
headers. -/
theorem claim_C8_error_file_presence_witness :
    (∃ res, buildAccountsContacts [] [] = .ok res ∧
      ((res.errFile ≠ none) ↔ res.stats.error_rows ≠ 0) ∧
      res.outFile.header = accountsContactsFieldNames) ∧
    (∃ res, buildOpportunities
        [⟨"1", [("Account Name", Value.vStr "A")], "A", true⟩]
        [[("company_id", Value.vStr "1"), ("Name", Value.vStr "D"),
          ("Stage", Value.vStr "Qualify"), ("Close Date", Value.vStr "x")]] = .ok res ∧
      ((res.errFile ≠ none) ↔ res.stats.error_rows ≠ 0) ∧
      res.stats.total_rows = 1) := by
  constructor
  · refine ⟨closePass accountsContactsFieldNames ([], [], 0, 0), rfl, ?_, ?_⟩
    · exact (claim_C8_error_file_presence.1 [] []
        (closePass accountsContactsFieldNames ([], [], 0, 0)) rfl).2.1
    · exact (claim_C8_error_file_presence.1 [] []
        (closePass accountsContactsFieldNames ([], [], 0, 0)) rfl).2.2.1
  · have hrun : buildOpportunities
        [⟨"1", [("Account Name", Value.vStr "A")], "A", true⟩]
        [[("company_id", Value.vStr "1"), ("Name", Value.vStr "D"),
          ("Stage", Value.vStr "Qualify"), ("Close Date", Value.vStr "x")]] =
        .ok (closePass opportunitiesFieldNames
          ([], [dictUpsert (normalizeRow (dictUpsert
              [("Name", Value.vStr "D"), ("Stage", Value.vStr "Qualify"),
               ("Close Date", Value.vStr "x")]
              OPPORTUNITIES_ACCOUNT_NAME_COLUMN (Value.vStr "A")))
            ERROR_COLUMN (Value.vStr DUPLICATE_COMPANY_MESSAGE)], 1, 1)) := by decide
    refine ⟨_, hrun, ?_, ?_⟩
    · exact (claim_C8_error_file_presence.2
        [⟨"1", [("Account Name", Value.vStr "A")], "A", true⟩]
        [[("company_id", Value.vStr "1"), ("Name", Value.vStr "D"),
          ("Stage", Value.vStr "Qualify"), ("Close Date", Value.vStr "x")]]
        _ hrun).2.1
    · exact (claim_C8_error_file_presence.2
        [⟨"1", [("Account Name", Value.vStr "A")], "A", true⟩]
        [[("company_id", Value.vStr "1"), ("Name", Value.vStr "D"),
          ("Stage", Value.vStr "Qualify"), ("Close Date", Value.vStr "x")]]
        _ hrun).2.2.2.2

end HsSf
